import Mathlib

/-!
Verification of the EPT (Extended Page Table) core of the illusion-rs
hypervisor: the `Entry` bitfield, the `Ept` structure and its mutation
algorithms from `hypervisor/src/intel/ept/paging.rs`, the physical-address
wrapper from `hypervisor/src/intel/addresses.rs`, and the EPT-violation
handler from `hypervisor/src/intel/vmexit/ept.rs`.

Machine integers (u64) are modelled as `Nat` with explicit truncation where
the Rust code truncates: the bitfield setters keep only the bits of their
field, and `PhysicalAddress` arithmetic is reduced modulo `2 ^ 64` where the
Rust shift would wrap.
-/

namespace Illusion

/-- A run of `w` one bits: `2 ^ w - 1`. -/
def ones (w : Nat) : Nat := 2 ^ w - 1

/-- Read the `w`-bit field starting at bit `lo` of `v`. -/
def getField (v lo w : Nat) : Nat := (v >>> lo) &&& ones w

/-- Write `x` (truncated to `w` bits) into the field of `v` starting at bit
`lo`, leaving the other bits of the 64-bit value unchanged. -/
def setField (v lo w x : Nat) : Nat :=
  (v &&& (ones 64 ^^^ (ones w <<< lo))) ||| ((x &&& ones w) <<< lo)

/-- Write a single boolean bit at position `i`. -/
def setBitB (v i : Nat) (b : Bool) : Nat := setField v i 1 (if b then 1 else 0)

/-- An EPT paging-structure entry: a 64-bit value packing permission bits, the
memory type, the large-page flag and the page-frame number, exactly as the
`bitfield!` declaration in `paging.rs` lays them out. -/
structure Entry where
  bits : Nat
deriving DecidableEq

/-- Bit 0 of the entry: read permission. -/
def Entry.readable (e : Entry) : Bool := e.bits.testBit 0

/-- Bit 1 of the entry: write permission. -/
def Entry.writable (e : Entry) : Bool := e.bits.testBit 1

/-- Bit 2 of the entry: execute permission. -/
def Entry.executable (e : Entry) : Bool := e.bits.testBit 2

/-- Bits 3 to 5 of the entry: the memory type. -/
def Entry.memory_type (e : Entry) : Nat := getField e.bits 3 3

/-- Bit 7 of the entry: the large-page flag. -/
def Entry.large (e : Entry) : Bool := e.bits.testBit 7

/-- Bits 12 to 51 of the entry: the page-frame number. -/
def Entry.pfn (e : Entry) : Nat := getField e.bits 12 40

def Entry.set_readable (e : Entry) (b : Bool) : Entry := ⟨setBitB e.bits 0 b⟩

def Entry.set_writable (e : Entry) (b : Bool) : Entry := ⟨setBitB e.bits 1 b⟩

def Entry.set_executable (e : Entry) (b : Bool) : Entry := ⟨setBitB e.bits 2 b⟩

def Entry.set_memory_type (e : Entry) (x : Nat) : Entry := ⟨setField e.bits 3 3 x⟩

def Entry.set_large (e : Entry) (b : Bool) : Entry := ⟨setBitB e.bits 7 b⟩

def Entry.set_pfn (e : Entry) (x : Nat) : Entry := ⟨setField e.bits 12 40 x⟩

/-- A paging table: 512 entry slots, modelled as a total function from the
slot index to the entry (only indices below 512 are ever addressed). -/
def Table := Nat → Entry

/-- Overwrite slot `i` of a table. -/
def upd (t : Table) (i : Nat) (e : Entry) : Table :=
  fun j => if j = i then e else t j

/-- Overwrite table `i` of a family of tables. -/
def updF (f : Nat → Table) (i : Nat) (t : Table) : Nat → Table :=
  fun a => if a = i then t else f a

/-- The EPT aggregate from `paging.rs`: one PML4 table, one PDPT table, 512
PD tables and 64 PT tables, together with the host addresses at which the
tables live (the Rust code obtains these with `addr_of!`; they are part of
the state because the construction routines store them, shifted, in the
page-frame-number fields of pointer entries). -/
structure Ept where
  pml4 : Table
  pdpt : Table
  pd : Nat → Table
  pt : Nat → Table
  pml4Addr : Nat
  pdptAddr : Nat
  pdAddr : Nat → Nat
  ptAddr : Nat → Nat

/-- Error cases of the modelled operations, from `error.rs` as used by
`paging.rs`. -/
inductive HypervisorError where
  | MemoryTypeResolutionError
  | InvalidPtIndex
  | PageAlreadySplit
  | UnalignedAddressError
  | LargePageRemapError
  | InvalidEptPml4BaseAddress
deriving DecidableEq

def BASE_PAGE_SHIFT : Nat := 12

def BASE_PAGE_SIZE : Nat := 4096

def LARGE_PAGE_SIZE : Nat := 0x200000

/-- PDPT slot selector of an address, bits 30 to 38 (x86 crate). -/
def pdpt_index (va : Nat) : Nat := (va >>> 30) &&& 0x1FF

/-- PD slot selector of an address, bits 21 to 29 (x86 crate). -/
def pd_index (va : Nat) : Nat := (va >>> 21) &&& 0x1FF

/-- PT slot selector of an address, bits 12 to 20 (x86 crate). -/
def pt_index (va : Nat) : Nat := (va >>> 12) &&& 0x1FF

def isBasePageAligned (va : Nat) : Bool := va % BASE_PAGE_SIZE == 0

def isLargePageAligned (va : Nat) : Bool := va % LARGE_PAGE_SIZE == 0

def AccessTypeREAD : Nat := 1

def AccessTypeWRITE : Nat := 2

def AccessTypeEXECUTE : Nat := 4

/-- Bitflags containment test: `a.contains(f)` is `a &&& f == f`. -/
def accessContains (a f : Nat) : Bool := a &&& f == f

/-- Translation of `Ept::unmap_2mb`: a no-op on a non-readable entry,
otherwise clears the permission bits, the memory type, the large flag and
the page-frame number. -/
def unmap_2mb (entry : Entry) : Entry :=
  if !entry.readable then entry
  else
    (((((entry.set_readable false).set_writable false).set_executable
        false).set_memory_type 0).set_large false).set_pfn 0

/-- The 4KB leaf entry written by the split loop and by the pt0 loop of
`build_identity`: full permissions, the given memory type, and the
page-frame number of `pa`. -/
def newPte4kb (old : Entry) (memory_type pa : Nat) : Entry :=
  ((((old.set_readable true).set_writable true).set_executable
      true).set_memory_type memory_type).set_pfn (pa >>> BASE_PAGE_SHIFT)

/-- The body of the split loop of `Ept::split_2mb_to_4kb`: slot `i` of the
chosen PT receives a full-permission 4KB entry for `guest_pa + i * 4096`.
Each loop iteration writes one distinct slot from its previous value, so the
loop is rendered slot-wise. -/
def splitPtFill (t : Table) (guest_pa memory_type : Nat) : Table :=
  fun i =>
    if i < 512 then newPte4kb (t i) memory_type (guest_pa + i * BASE_PAGE_SIZE)
    else t i

/-- Translation of `Ept::split_2mb_to_4kb`. The Rust method mutates in place
and returns `Result<(), HypervisorError>`; here the result and the final
state are returned as a pair. -/
def split_2mb_to_4kb (ept : Ept) (guest_pa pt_table_index : Nat) :
    Except HypervisorError Unit × Ept :=
  if pt_table_index = 0 ∨ 64 ≤ pt_table_index then (.error .InvalidPtIndex, ept)
  else
    let pi := pdpt_index guest_pa
    let di := pd_index guest_pa
    let pde := ept.pd pi di
    if !pde.large then (.error .PageAlreadySplit, ept)
    else
      let memory_type := pde.memory_type
      let pde1 := unmap_2mb pde
      let pt1 := updF ept.pt pt_table_index
        (splitPtFill (ept.pt pt_table_index) guest_pa memory_type)
      let pde2 :=
        (((((pde1.set_readable true).set_writable true).set_executable
            true).set_memory_type memory_type).set_large false).set_pfn
          (ept.ptAddr pt_table_index >>> BASE_PAGE_SHIFT)
      (.ok (), { ept with pd := updF ept.pd pi (upd (ept.pd pi) di pde2), pt := pt1 })

/-- The permission edit applied by `Ept::modify_page_permissions` to the
entry it dispatches to. -/
def setRwx (e : Entry) (access_type : Nat) : Entry :=
  ((e.set_readable (accessContains access_type AccessTypeREAD)).set_writable
      (accessContains access_type AccessTypeWRITE)).set_executable
    (accessContains access_type AccessTypeEXECUTE)

/-- Translation of `Ept::modify_page_permissions`. -/
def modify_page_permissions (ept : Ept) (guest_pa access_type pt_table_index : Nat) :
    Except HypervisorError Unit × Ept :=
  if pt_table_index = 0 ∨ 64 ≤ pt_table_index then (.error .InvalidPtIndex, ept)
  else if !isLargePageAligned guest_pa && !isBasePageAligned guest_pa then
    (.error .UnalignedAddressError, ept)
  else
    let pi := pdpt_index guest_pa
    let di := pd_index guest_pa
    let ti := pt_index guest_pa
    let pde := ept.pd pi di
    if pde.large then
      (.ok (), { ept with pd := updF ept.pd pi (upd (ept.pd pi) di (setRwx pde access_type)) })
    else
      let pt1 := updF ept.pt pt_table_index
        (upd (ept.pt pt_table_index) ti (setRwx (ept.pt pt_table_index ti) access_type))
      (.ok (), { ept with pt := pt1 })

/-- Translation of `Ept::remap_gpa_to_hpa`. -/
def remap_gpa_to_hpa (ept : Ept) (guest_pa host_pa pt_table_index : Nat) :
    Except HypervisorError Unit × Ept :=
  if pt_table_index = 0 ∨ 64 ≤ pt_table_index then (.error .InvalidPtIndex, ept)
  else if !isBasePageAligned guest_pa || !isBasePageAligned host_pa then
    (.error .UnalignedAddressError, ept)
  else
    let pi := pdpt_index guest_pa
    let di := pd_index guest_pa
    let ti := pt_index guest_pa
    let pde := ept.pd pi di
    if pde.large then (.error .LargePageRemapError, ept)
    else
      let pt1 := updF ept.pt pt_table_index
        (upd (ept.pt pt_table_index) ti
          ((ept.pt pt_table_index ti).set_pfn (host_pa >>> BASE_PAGE_SHIFT)))
      (.ok (), { ept with pt := pt1 })

/-- Fuelled trailing-zero count of a 64-bit value: `u64::trailing_zeros`
returns 64 for zero. -/
def tzAux (v : Nat) : Nat → Nat
  | 0 => 0
  | fuel + 1 => if v % 2 = 1 then 0 else tzAux (v / 2) fuel + 1

def trailing_zeros (v : Nat) : Nat := tzAux v 64

def EPT_PAGE_WALK_LENGTH_4 : Nat := 3 <<< 3

/-- Modelled from the spec: the write-back code stamped into the EPTP.  The
`MemoryType` enum lives in `intel/ept/mtrr.rs`, which is not among the
provided sources; the Intel encoding of write-back is 6. -/
def MemoryTypeWriteBack : Nat := 6

/-- Translation of `Ept::create_eptp_with_wb_and_4lvl_walk`: checks the
4KB alignment of the PML4 base address with a trailing-zeros test and
encodes base, walk length and memory type by bitwise or. -/
def create_eptp_with_wb_and_4lvl_walk (ept : Ept) : Except HypervisorError Nat :=
  let ept_pml4_base_addr := ept.pml4Addr
  if 12 ≤ trailing_zeros ept_pml4_base_addr then
    .ok (ept_pml4_base_addr ||| EPT_PAGE_WALK_LENGTH_4 ||| MemoryTypeWriteBack)
  else .error .InvalidEptPml4BaseAddress

/-- Translation of `PhysicalAddress` from `addresses.rs`; the wrapped
`PAddr` is a u64, so values are reduced modulo `2 ^ 64`. -/
structure PhysicalAddress where
  addr : Nat
deriving DecidableEq

def PhysicalAddress.from_pa (pa : Nat) : PhysicalAddress := ⟨pa % 2 ^ 64⟩

def PhysicalAddress.from_pfn (pfn : Nat) : PhysicalAddress :=
  ⟨(pfn <<< BASE_PAGE_SHIFT) % 2 ^ 64⟩

def PhysicalAddress.pfn (p : PhysicalAddress) : Nat := p.addr >>> BASE_PAGE_SHIFT

def PhysicalAddress.pa (p : PhysicalAddress) : Nat := p.addr

/-- The decoded exit qualification consumed by `handle_ept_violation`: the
handler reads exactly the three permission attributes of the decoded
`EptViolationExitQualification`. -/
structure QualBits where
  readable : Bool
  writable : Bool
  executable : Bool
deriving DecidableEq

/-- The externally visible effects of one run of the violation handler:
the sequence of values written to the EPTP control field, and how many
times all EPT contexts were invalidated. -/
structure VmexitTrace where
  eptpWrites : List Nat
  inveptAllContexts : Nat
deriving DecidableEq

/-- Exit disposition of a VM-exit handler, from `vmexit/mod.rs`; only
`IncrementRIP` advances the guest instruction pointer. -/
inductive ExitType where
  | ExitHypervisor
  | IncrementRIP
  | Continue
deriving DecidableEq

/-- Translation of `handle_ept_violation` from `vmexit/ept.rs`: two
independent guards on the decoded qualification, each writing one EPTP
value and invalidating all contexts, then `ExitType::Continue`. -/
def handle_ept_violation (q : QualBits) (primary_eptp secondary_eptp : Nat) :
    VmexitTrace × ExitType :=
  let t0 : VmexitTrace := ⟨[], 0⟩
  let t1 :=
    if q.readable && q.writable && !q.executable then
      VmexitTrace.mk (t0.eptpWrites ++ [secondary_eptp]) (t0.inveptAllContexts + 1)
    else t0
  let t2 :=
    if !q.readable && !q.writable && q.executable then
      VmexitTrace.mk (t1.eptpWrites ++ [primary_eptp]) (t1.inveptAllContexts + 1)
    else t1
  (t2, ExitType.Continue)

/-- Memory-type resolver interface: the signature of `Mtrr::find` over a
physical range, an external collaborator of `build_identity`. -/
def MtrrFind := Nat → Nat → Option Nat

/-- The pointer entry written for PML4 slot 0, for each PDPT slot, and for
the PD slot referencing `pt[0]` in `build_identity`: full permissions and
the page-frame number of the referenced table address. -/
def ptrEntry (old : Entry) (tableAddr : Nat) : Entry :=
  (((old.set_readable true).set_writable true).set_executable true).set_pfn
    (tableAddr >>> BASE_PAGE_SHIFT)

/-- The large-page PD entry written by `build_identity`: full permissions,
the resolved memory type, the large flag, and the page-frame number of the
cursor `pa`. -/
def newPde2mb (old : Entry) (memory_type pa : Nat) : Entry :=
  (((((old.set_readable true).set_writable true).set_executable
      true).set_memory_type memory_type).set_large true).set_pfn
    (pa >>> BASE_PAGE_SHIFT)

/-- The inner loop of `build_identity` over the entries of `pt[0]`: from
slot `j` for the given number of iterations, threading the physical-address
cursor `pa` and failing when the resolver cannot classify a 4KB range. -/
def ptLoop (mtrr : MtrrFind) (t : Table) (pa j : Nat) :
    Nat → Except HypervisorError (Table × Nat)
  | 0 => .ok (t, pa)
  | n + 1 =>
    match mtrr pa (pa + BASE_PAGE_SIZE) with
    | none => .error .MemoryTypeResolutionError
    | some memory_type =>
      ptLoop mtrr (upd t j (newPte4kb (t j) memory_type pa)) (pa + BASE_PAGE_SIZE)
        (j + 1) n

/-- The loop of `build_identity` over the 512 entries of one PD table: an
iteration seeing `pa = 0` points the PD entry at `pt[0]` and fills `pt[0]`
through `ptLoop`; every other iteration writes a large 2MB entry and
advances the cursor by 2MB. -/
def pdLoop (mtrr : MtrrFind) (pdT pt0 : Table) (pt0Addr pa j : Nat) :
    Nat → Except HypervisorError (Table × Table × Nat)
  | 0 => .ok (pdT, pt0, pa)
  | n + 1 =>
    if pa = 0 then
      let pde := ptrEntry (pdT j) pt0Addr
      match ptLoop mtrr pt0 pa 0 512 with
      | .error e => .error e
      | .ok (pt0a, pa1) => pdLoop mtrr (upd pdT j pde) pt0a pt0Addr pa1 (j + 1) n
    else
      match mtrr pa (pa + LARGE_PAGE_SIZE) with
      | none => .error .MemoryTypeResolutionError
      | some memory_type =>
        pdLoop mtrr (upd pdT j (newPde2mb (pdT j) memory_type pa)) pt0 pt0Addr
          (pa + LARGE_PAGE_SIZE) (j + 1) n

/-- The outer loop of `build_identity` over the 512 PDPT entries: each
iteration points PDPT slot `i` at `pd[i]` and runs `pdLoop` over the 512
entries of `pd[i]`, threading the shared cursor. -/
def pdptLoop (mtrr : MtrrFind) (pdptT : Table) (pdTs : Nat → Table) (pt0 : Table)
    (pdAddr : Nat → Nat) (pt0Addr pa i : Nat) :
    Nat → Except HypervisorError (Table × (Nat → Table) × Table × Nat)
  | 0 => .ok (pdptT, pdTs, pt0, pa)
  | n + 1 =>
    let pdpte := ptrEntry (pdptT i) (pdAddr i)
    match pdLoop mtrr (pdTs i) pt0 pt0Addr pa 0 512 with
    | .error e => .error e
    | .ok (pdI, pt0a, pa1) =>
      pdptLoop mtrr (upd pdptT i pdpte) (updF pdTs i pdI) pt0a pdAddr pt0Addr pa1
        (i + 1) n

/-- Translation of `Ept::build_identity`: writes PML4 slot 0 as a pointer to
the PDPT and runs the PDPT walk from physical-address cursor 0. -/
def build_identity (mtrr : MtrrFind) (ept : Ept) : Except HypervisorError Ept :=
  let pml4e := ptrEntry (ept.pml4 0) ept.pdptAddr
  match pdptLoop mtrr ept.pdpt ept.pd (ept.pt 0) ept.pdAddr (ept.ptAddr 0) 0 0 512 with
  | .error e => .error e
  | .ok (pdptT, pdTs, pt0a, _) =>
    .ok { ept with pml4 := upd ept.pml4 0 pml4e, pdpt := pdptT, pd := pdTs,
                   pt := updF ept.pt 0 pt0a }

/-- A table with all entries zero, the state of a freshly zeroed allocation. -/
def zeroTable : Table := fun _ => ⟨0⟩

/-- A zeroed `Ept` at the given table addresses; the boot code allocates the
two EPT instances zeroed before calling `build_identity`. -/
def zeroEpt (pml4Addr pdptAddr : Nat) (pdAddr ptAddr : Nat → Nat) : Ept :=
  { pml4 := zeroTable, pdpt := zeroTable, pd := fun _ => zeroTable,
    pt := fun _ => zeroTable, pml4Addr := pml4Addr, pdptAddr := pdptAddr,
    pdAddr := pdAddr, ptAddr := ptAddr }

/-- A concrete zeroed `Ept` used to exercise the theorems. -/
def eptZeroC : Ept :=
  zeroEpt 0x10000 0x11000 (fun i => 0x12000 + i * 0x1000)
    (fun i => 0x212000 + i * 0x1000)

/-- A concrete large PD entry: read, write and execute set, memory type 6,
large flag set, page-frame number 0x200, so it maps the 2MB region at
guest-physical 0x200000 onto itself. -/
def pdeLargeC : Entry := ⟨0x2000B7⟩

/-- A concrete `Ept` whose PD entry (0, 1) is `pdeLargeC` and whose other
entries are all zero. -/
def eptSplitC : Ept :=
  { eptZeroC with pd := fun a => fun b => if a = 0 ∧ b = 1 then pdeLargeC else ⟨0⟩ }

/-- A concrete non-large PD entry with full permissions whose page-frame
number 0x123 references none of the modelled PT tables. -/
def pdeNonLargeC : Entry := ⟨0x123007⟩

/-- A concrete `Ept` whose PD entry (0, 3) is `pdeNonLargeC`, non-large and
pointing away from every `pt` table, with all other entries zero. -/
def eptMisC : Ept :=
  { eptZeroC with pd := fun a => fun b => if a = 0 ∧ b = 3 then pdeNonLargeC else ⟨0⟩ }

/-- A total memory-type resolver answering write-back for every range. -/
def mtrrWB : MtrrFind := fun _ _ => some 6

/-- Extract the success value of an EPT-returning run, with a default for
the error case. -/
def getOk (r : Except HypervisorError Ept) (d : Ept) : Ept :=
  match r with
  | .ok e => e
  | .error _ => d

/-- The identity mapping built over `eptZeroC` with the total resolver
`mtrrWB`; the run succeeds, see `build_identity_wb_ok`. -/
def identityE : Ept := getOk (build_identity mtrrWB eptZeroC) eptZeroC

/-! Bit-level lemmas about the field primitives. -/

theorem testBit_ones (w i : Nat) : (ones w).testBit i = decide (i < w) := by
  simp [ones, Nat.testBit_two_pow_sub_one]

theorem testBit_setField (v lo w x i : Nat) (h : lo + w ≤ 64) :
    (setField v lo w x).testBit i =
      if lo ≤ i ∧ i < lo + w then x.testBit (i - lo)
      else (v.testBit i && decide (i < 64)) := by
  unfold setField
  simp only [Nat.testBit_lor, Nat.testBit_land, Nat.testBit_xor, Nat.testBit_shiftLeft,
    testBit_ones]
  by_cases h1 : lo ≤ i
  · by_cases h2 : i < lo + w
    · have h3 : i < 64 := Nat.lt_of_lt_of_le h2 h
      have h4 : i - lo < w := by omega
      simp [h1, h2, h3, h4]
    · have h4 : ¬ (i - lo < w) := by omega
      by_cases h3 : i < 64 <;> simp [h1, h2, h3, h4]
  · have h3 : i < 64 := by omega
    simp [h1, h3]

theorem testBit_setField_in (v lo w x i : Nat) (h : lo + w ≤ 64)
    (h1 : lo ≤ i) (h2 : i < lo + w) :
    (setField v lo w x).testBit i = x.testBit (i - lo) := by
  rw [testBit_setField v lo w x i h]
  simp [h1, h2]

theorem testBit_setField_out (v lo w x i : Nat) (h : lo + w ≤ 64)
    (hi : i < 64) (hd : i < lo ∨ lo + w ≤ i) :
    (setField v lo w x).testBit i = v.testBit i := by
  rw [testBit_setField v lo w x i h]
  have : ¬ (lo ≤ i ∧ i < lo + w) := by omega
  simp [this, hi]

theorem getField_setField_same (v lo w x : Nat) (h : lo + w ≤ 64) :
    getField (setField v lo w x) lo w = x % 2 ^ w := by
  unfold getField
  apply Nat.eq_of_testBit_eq
  intro i
  simp only [Nat.testBit_land, Nat.testBit_shiftRight, testBit_ones, Nat.testBit_mod_two_pow]
  by_cases hi : i < w
  · have h1 : lo ≤ lo + i := Nat.le_add_right lo i
    have h2 : lo + i < lo + w := by omega
    rw [testBit_setField_in v lo w x (lo + i) h h1 h2]
    have : lo + i - lo = i := by omega
    simp [this, hi]
  · simp [hi]

theorem getField_setField_out (v lo w x lo2 w2 : Nat) (h : lo + w ≤ 64)
    (h2 : lo2 + w2 ≤ 64) (hd : lo + w ≤ lo2 ∨ lo2 + w2 ≤ lo) :
    getField (setField v lo w x) lo2 w2 = getField v lo2 w2 := by
  unfold getField
  apply Nat.eq_of_testBit_eq
  intro i
  simp only [Nat.testBit_land, Nat.testBit_shiftRight, testBit_ones]
  by_cases hi : i < w2
  · have hlt : lo2 + i < 64 := by omega
    rw [testBit_setField_out v lo w x (lo2 + i) h hlt (by omega)]
  · simp [hi]

theorem testBit_bool (b : Bool) : (if b then 1 else 0 : Nat).testBit 0 = b := by
  cases b <;> decide

@[simp] theorem readable_set_readable (e : Entry) (b : Bool) :
    (e.set_readable b).readable = b := by
  cases b <;>
    simp [Entry.readable, Entry.set_readable, setBitB,
      testBit_setField_in e.bits 0 1 _ 0 (by omega) (by omega) (by omega)]

@[simp] theorem readable_set_writable (e : Entry) (b : Bool) :
    (e.set_writable b).readable = e.readable := by
  simp [Entry.readable, Entry.set_writable, setBitB,
    testBit_setField_out e.bits 1 1 _ 0 (by omega) (by omega) (by omega)]

@[simp] theorem readable_set_executable (e : Entry) (b : Bool) :
    (e.set_executable b).readable = e.readable := by
  simp [Entry.readable, Entry.set_executable, setBitB,
    testBit_setField_out e.bits 2 1 _ 0 (by omega) (by omega) (by omega)]

@[simp] theorem readable_set_memory_type (e : Entry) (x : Nat) :
    (e.set_memory_type x).readable = e.readable := by
  simp [Entry.readable, Entry.set_memory_type,
    testBit_setField_out e.bits 3 3 _ 0 (by omega) (by omega) (by omega)]

@[simp] theorem readable_set_large (e : Entry) (b : Bool) :
    (e.set_large b).readable = e.readable := by
  simp [Entry.readable, Entry.set_large, setBitB,
    testBit_setField_out e.bits 7 1 _ 0 (by omega) (by omega) (by omega)]

@[simp] theorem readable_set_pfn (e : Entry) (x : Nat) :
    (e.set_pfn x).readable = e.readable := by
  simp [Entry.readable, Entry.set_pfn,
    testBit_setField_out e.bits 12 40 _ 0 (by omega) (by omega) (by omega)]

@[simp] theorem writable_set_readable (e : Entry) (b : Bool) :
    (e.set_readable b).writable = e.writable := by
  simp [Entry.writable, Entry.set_readable, setBitB,
    testBit_setField_out e.bits 0 1 _ 1 (by omega) (by omega) (by omega)]

@[simp] theorem writable_set_writable (e : Entry) (b : Bool) :
    (e.set_writable b).writable = b := by
  cases b <;>
    simp [Entry.writable, Entry.set_writable, setBitB,
      testBit_setField_in e.bits 1 1 _ 1 (by omega) (by omega) (by omega)]

@[simp] theorem writable_set_executable (e : Entry) (b : Bool) :
    (e.set_executable b).writable = e.writable := by
  simp [Entry.writable, Entry.set_executable, setBitB,
    testBit_setField_out e.bits 2 1 _ 1 (by omega) (by omega) (by omega)]

@[simp] theorem writable_set_memory_type (e : Entry) (x : Nat) :
    (e.set_memory_type x).writable = e.writable := by
  simp [Entry.writable, Entry.set_memory_type,
    testBit_setField_out e.bits 3 3 _ 1 (by omega) (by omega) (by omega)]

@[simp] theorem writable_set_large (e : Entry) (b : Bool) :
    (e.set_large b).writable = e.writable := by
  simp [Entry.writable, Entry.set_large, setBitB,
    testBit_setField_out e.bits 7 1 _ 1 (by omega) (by omega) (by omega)]

@[simp] theorem writable_set_pfn (e : Entry) (x : Nat) :
    (e.set_pfn x).writable = e.writable := by
  simp [Entry.writable, Entry.set_pfn,
    testBit_setField_out e.bits 12 40 _ 1 (by omega) (by omega) (by omega)]

@[simp] theorem executable_set_readable (e : Entry) (b : Bool) :
    (e.set_readable b).executable = e.executable := by
  simp [Entry.executable, Entry.set_readable, setBitB,
    testBit_setField_out e.bits 0 1 _ 2 (by omega) (by omega) (by omega)]

@[simp] theorem executable_set_writable (e : Entry) (b : Bool) :
    (e.set_writable b).executable = e.executable := by
  simp [Entry.executable, Entry.set_writable, setBitB,
    testBit_setField_out e.bits 1 1 _ 2 (by omega) (by omega) (by omega)]

@[simp] theorem executable_set_executable (e : Entry) (b : Bool) :
    (e.set_executable b).executable = b := by
  cases b <;>
    simp [Entry.executable, Entry.set_executable, setBitB,
      testBit_setField_in e.bits 2 1 _ 2 (by omega) (by omega) (by omega)]

@[simp] theorem executable_set_memory_type (e : Entry) (x : Nat) :
    (e.set_memory_type x).executable = e.executable := by
  simp [Entry.executable, Entry.set_memory_type,
    testBit_setField_out e.bits 3 3 _ 2 (by omega) (by omega) (by omega)]

@[simp] theorem executable_set_large (e : Entry) (b : Bool) :
    (e.set_large b).executable = e.executable := by
  simp [Entry.executable, Entry.set_large, setBitB,
    testBit_setField_out e.bits 7 1 _ 2 (by omega) (by omega) (by omega)]

@[simp] theorem executable_set_pfn (e : Entry) (x : Nat) :
    (e.set_pfn x).executable = e.executable := by
  simp [Entry.executable, Entry.set_pfn,
    testBit_setField_out e.bits 12 40 _ 2 (by omega) (by omega) (by omega)]

@[simp] theorem memory_type_set_readable (e : Entry) (b : Bool) :
    (e.set_readable b).memory_type = e.memory_type := by
  simp [Entry.memory_type, Entry.set_readable, setBitB,
    getField_setField_out e.bits 0 1 _ 3 3 (by omega) (by omega) (by omega)]

@[simp] theorem memory_type_set_writable (e : Entry) (b : Bool) :
    (e.set_writable b).memory_type = e.memory_type := by
  simp [Entry.memory_type, Entry.set_writable, setBitB,
    getField_setField_out e.bits 1 1 _ 3 3 (by omega) (by omega) (by omega)]

@[simp] theorem memory_type_set_executable (e : Entry) (b : Bool) :
    (e.set_executable b).memory_type = e.memory_type := by
  simp [Entry.memory_type, Entry.set_executable, setBitB,
    getField_setField_out e.bits 2 1 _ 3 3 (by omega) (by omega) (by omega)]

@[simp] theorem memory_type_set_memory_type (e : Entry) (x : Nat) :
    (e.set_memory_type x).memory_type = x % 2 ^ 3 := by
  simp [Entry.memory_type, Entry.set_memory_type,
    getField_setField_same e.bits 3 3 x (by omega)]

@[simp] theorem memory_type_set_large (e : Entry) (b : Bool) :
    (e.set_large b).memory_type = e.memory_type := by
  simp [Entry.memory_type, Entry.set_large, setBitB,
    getField_setField_out e.bits 7 1 _ 3 3 (by omega) (by omega) (by omega)]

@[simp] theorem memory_type_set_pfn (e : Entry) (x : Nat) :
    (e.set_pfn x).memory_type = e.memory_type := by
  simp [Entry.memory_type, Entry.set_pfn,
    getField_setField_out e.bits 12 40 _ 3 3 (by omega) (by omega) (by omega)]

@[simp] theorem large_set_readable (e : Entry) (b : Bool) :
    (e.set_readable b).large = e.large := by
  simp [Entry.large, Entry.set_readable, setBitB,
    testBit_setField_out e.bits 0 1 _ 7 (by omega) (by omega) (by omega)]

@[simp] theorem large_set_writable (e : Entry) (b : Bool) :
    (e.set_writable b).large = e.large := by
  simp [Entry.large, Entry.set_writable, setBitB,
    testBit_setField_out e.bits 1 1 _ 7 (by omega) (by omega) (by omega)]

@[simp] theorem large_set_executable (e : Entry) (b : Bool) :
    (e.set_executable b).large = e.large := by
  simp [Entry.large, Entry.set_executable, setBitB,
    testBit_setField_out e.bits 2 1 _ 7 (by omega) (by omega) (by omega)]

@[simp] theorem large_set_memory_type (e : Entry) (x : Nat) :
    (e.set_memory_type x).large = e.large := by
  simp [Entry.large, Entry.set_memory_type,
    testBit_setField_out e.bits 3 3 _ 7 (by omega) (by omega) (by omega)]

@[simp] theorem large_set_large (e : Entry) (b : Bool) :
    (e.set_large b).large = b := by
  cases b <;>
    simp [Entry.large, Entry.set_large, setBitB,
      testBit_setField_in e.bits 7 1 _ 7 (by omega) (by omega) (by omega)]

@[simp] theorem large_set_pfn (e : Entry) (x : Nat) :
    (e.set_pfn x).large = e.large := by
  simp [Entry.large, Entry.set_pfn,
    testBit_setField_out e.bits 12 40 _ 7 (by omega) (by omega) (by omega)]

@[simp] theorem pfn_set_readable (e : Entry) (b : Bool) :
    (e.set_readable b).pfn = e.pfn := by
  simp [Entry.pfn, Entry.set_readable, setBitB,
    getField_setField_out e.bits 0 1 _ 12 40 (by omega) (by omega) (by omega)]

@[simp] theorem pfn_set_writable (e : Entry) (b : Bool) :
    (e.set_writable b).pfn = e.pfn := by
  simp [Entry.pfn, Entry.set_writable, setBitB,
    getField_setField_out e.bits 1 1 _ 12 40 (by omega) (by omega) (by omega)]

@[simp] theorem pfn_set_executable (e : Entry) (b : Bool) :
    (e.set_executable b).pfn = e.pfn := by
  simp [Entry.pfn, Entry.set_executable, setBitB,
    getField_setField_out e.bits 2 1 _ 12 40 (by omega) (by omega) (by omega)]

@[simp] theorem pfn_set_memory_type (e : Entry) (x : Nat) :
    (e.set_memory_type x).pfn = e.pfn := by
  simp [Entry.pfn, Entry.set_memory_type,
    getField_setField_out e.bits 3 3 _ 12 40 (by omega) (by omega) (by omega)]

@[simp] theorem pfn_set_large (e : Entry) (b : Bool) :
    (e.set_large b).pfn = e.pfn := by
  simp [Entry.pfn, Entry.set_large, setBitB,
    getField_setField_out e.bits 7 1 _ 12 40 (by omega) (by omega) (by omega)]

@[simp] theorem pfn_set_pfn (e : Entry) (x : Nat) :
    (e.set_pfn x).pfn = x % 2 ^ 40 := by
  simp [Entry.pfn, Entry.set_pfn,
    getField_setField_same e.bits 12 40 x (by omega)]

theorem memory_type_lt (e : Entry) : e.memory_type < 2 ^ 3 := by
  have h : e.memory_type ≤ 7 := by
    have h2 := @Nat.and_le_right (e.bits >>> 3) (ones 3)
    simpa [Entry.memory_type, getField, ones] using h2
  exact Nat.lt_of_le_of_lt h (by norm_num)

theorem tzAux_ge_iff (k : Nat) : ∀ (v fuel : Nat), k ≤ fuel →
    (k ≤ tzAux v fuel ↔ v % 2 ^ k = 0) := by
  induction k with
  | zero =>
    intro v fuel _
    simp [Nat.pow_zero, Nat.mod_one]
  | succ k ih =>
    intro v fuel h
    match fuel, h with
    | fuel + 1, h =>
      have hdvd : (2 : Nat) ∣ 2 ^ (k + 1) := Dvd.intro (2 ^ k) (by ring)
      by_cases hv : v % 2 = 1
      · simp only [tzAux, hv, if_pos]
        constructor
        · omega
        · intro hmod
          have h2 : v % 2 = 0 := by
            have h3 := Nat.mod_mod_of_dvd v hdvd
            omega
          omega
      · have hv0 : v % 2 = 0 := by omega
        have hv2 : 2 * (v / 2) = v := by omega
        simp only [tzAux, hv, if_false, if_neg]
        have hiter := ih (v / 2) fuel (by omega)
        have hmod : v % 2 ^ (k + 1) = 2 * (v / 2 % 2 ^ k) := by
          conv_lhs => rw [← hv2]
          rw [pow_succ, mul_comm (2 ^ k) 2, Nat.mul_mod_mul_left]
        omega

theorem trailing_zeros_ge_12_iff (v : Nat) : 12 ≤ trailing_zeros v ↔ v % 4096 = 0 := by
  have h := tzAux_ge_iff 12 v 64 (by omega)
  have h2 : (2 : Nat) ^ 12 = 4096 := by norm_num
  rw [trailing_zeros]
  rw [h, h2]

/-- C8: `create_eptp_with_wb_and_4lvl_walk` returns
`InvalidEptPml4BaseAddress` exactly when the PML4 base address has a nonzero
bit among its low 12 bits, and on a 4KB-aligned base returns the base
combined with 0x18 (the 4-level walk-length code) and the write-back code by
bitwise or.  The function only returns the encoded value; the model writes
no control field. -/
theorem create_eptp_spec (ept : Ept) :
    (ept.pml4Addr % 4096 ≠ 0 →
      create_eptp_with_wb_and_4lvl_walk ept = .error .InvalidEptPml4BaseAddress) ∧
    (ept.pml4Addr % 4096 = 0 →
      create_eptp_with_wb_and_4lvl_walk ept =
        .ok (ept.pml4Addr ||| 0x18 ||| MemoryTypeWriteBack)) := by
  have hwalk : EPT_PAGE_WALK_LENGTH_4 = 0x18 := rfl
  unfold create_eptp_with_wb_and_4lvl_walk
  constructor
  · intro h
    rw [if_neg]
    rw [trailing_zeros_ge_12_iff]
    exact h
  · intro h
    rw [if_pos, hwalk]
    rw [trailing_zeros_ge_12_iff]
    exact h

/-- Witness for `create_eptp_spec` at two concrete PML4 base addresses, one
misaligned and one 4KB aligned. -/
theorem create_eptp_spec_witness :
    (zeroEpt 0x1001 0 (fun _ => 0) (fun _ => 0) : Ept).pml4Addr % 4096 ≠ 0 ∧
    create_eptp_with_wb_and_4lvl_walk (zeroEpt 0x1001 0 (fun _ => 0) (fun _ => 0)) =
      .error .InvalidEptPml4BaseAddress ∧
    (eptZeroC.pml4Addr % 4096 = 0) ∧
    create_eptp_with_wb_and_4lvl_walk eptZeroC =
      .ok (eptZeroC.pml4Addr ||| 0x18 ||| MemoryTypeWriteBack) :=
  ⟨by decide,
   (create_eptp_spec (zeroEpt 0x1001 0 (fun _ => 0) (fun _ => 0))).1 (by decide),
   by decide,
   (create_eptp_spec eptZeroC).2 (by decide)⟩

/-- C4 (amended): `from_pa` and `pa` are mutually inverse on 64-bit values,
`pfn` is `pa` shifted right by 12, and `from_pfn` composed with `pa` is the
wrapping 64-bit left shift by 12; the round trip `from_pfn(x).pfn() == x`
holds for `x` below `2 ^ 52` (beyond that the u64 shift discards the high
bits). -/
theorem physical_address_roundtrip (x : Nat) (p : PhysicalAddress) (hx : x < 2 ^ 64) :
    (PhysicalAddress.from_pa x).pa = x ∧
    (x < 2 ^ 52 → (PhysicalAddress.from_pfn x).pfn = x) ∧
    p.pfn = p.pa >>> 12 ∧
    (PhysicalAddress.from_pfn x).pa = (x <<< 12) % 2 ^ 64 := by
  refine ⟨?_, ?_, rfl, rfl⟩
  · show x % 2 ^ 64 = x
    exact Nat.mod_eq_of_lt hx
  · intro h52
    show ((x <<< 12) % 2 ^ 64) >>> 12 = x
    rw [Nat.shiftLeft_eq, Nat.shiftRight_eq_div_pow]
    have hlt : x * 2 ^ 12 < 2 ^ 64 := by nlinarith [h52]
    rw [Nat.mod_eq_of_lt hlt, Nat.mul_div_assoc x (dvd_refl (2 ^ 12)),
      Nat.div_self (by norm_num : 0 < 2 ^ 12), Nat.mul_one]

/-- Witness for `physical_address_roundtrip` at the concrete value 5. -/
theorem physical_address_roundtrip_witness :
    (5 : Nat) < 2 ^ 64 ∧ (PhysicalAddress.from_pa 5).pa = 5 ∧
    (PhysicalAddress.from_pfn 5).pfn = 5 :=
  ⟨by norm_num,
   (physical_address_roundtrip 5 ⟨0⟩ (by norm_num)).1,
   (physical_address_roundtrip 5 ⟨0⟩ (by norm_num)).2.1 (by norm_num)⟩

/-- Counterexample to C4 as stated: for the 64-bit value `2 ^ 52`, the
`from_pfn`-`pfn` round trip loses the value because the u64 left shift
wraps, returning 0. -/
theorem from_pfn_roundtrip_counterexample :
    (PhysicalAddress.from_pfn (2 ^ 52)).pfn = 0 ∧ (2 ^ 52 : Nat) ≠ 0 := by
  constructor
  · decide
  · decide

theorem readable_unmap_2mb (e : Entry) : (unmap_2mb e).readable = false := by
  by_cases h : e.readable = true
  · simp [unmap_2mb, h]
  · simp only [Bool.not_eq_true] at h
    simp [unmap_2mb, h]

theorem unmap_2mb_of_not_readable (e : Entry) (h : e.readable = false) :
    unmap_2mb e = e := by
  simp [unmap_2mb, h]

/-- C9 (amended): `unmap_2mb` on a readable entry clears the permission
bits, the memory type, the large flag and the page-frame number; on a
non-readable entry it is a no-op; hence it is idempotent and a second call
leaves the entry unchanged from the state the first call produced (which is
all-zero only when the entry carries no bits outside those fields). -/
theorem unmap_2mb_spec (e : Entry) :
    (e.readable = true →
      (unmap_2mb e).readable = false ∧ (unmap_2mb e).writable = false ∧
      (unmap_2mb e).executable = false ∧ (unmap_2mb e).memory_type = 0 ∧
      (unmap_2mb e).large = false ∧ (unmap_2mb e).pfn = 0) ∧
    (e.readable = false → unmap_2mb e = e) ∧
    unmap_2mb (unmap_2mb e) = unmap_2mb e := by
  refine ⟨?_, unmap_2mb_of_not_readable e, ?_⟩
  · intro h
    simp [unmap_2mb, h]
  · exact unmap_2mb_of_not_readable (unmap_2mb e) (readable_unmap_2mb e)

/-- Witness for `unmap_2mb_spec` at the concrete entry `pdeLargeC`. -/
theorem unmap_2mb_spec_witness :
    pdeLargeC.readable = true ∧ (unmap_2mb pdeLargeC).pfn = 0 ∧
    unmap_2mb (unmap_2mb pdeLargeC) = unmap_2mb pdeLargeC :=
  ⟨by decide, ((unmap_2mb_spec pdeLargeC).1 (by decide)).2.2.2.2.2,
   (unmap_2mb_spec pdeLargeC).2.2⟩

/-- Counterexample to C9 as stated: an entry that is readable but also carries
bit 57 (the verify-guest-paging flag) is not taken to the all-zero state by
the first call, because `unmap_2mb` clears only the six listed fields. -/
theorem unmap_2mb_allzero_counterexample :
    (unmap_2mb ⟨2 ^ 57 + 1⟩).bits = 2 ^ 57 ∧ (2 ^ 57 : Nat) ≠ 0 := by
  constructor
  · decide
  · decide

/-- C2: on a decoded qualification with readable and writable set and
executable clear, the handler writes exactly the secondary EPTP into the
EPTP control field and invalidates all EPT contexts exactly once; on the
inverse execute-only pattern it writes the primary EPTP with exactly one
invalidation; every other pattern performs no write and no invalidation;
and the handler always returns `Continue`, the exit type that does not
advance the guest instruction pointer. -/
theorem handle_ept_violation_spec (q : QualBits) (primary_eptp secondary_eptp : Nat) :
    (q.readable = true ∧ q.writable = true ∧ q.executable = false →
      (handle_ept_violation q primary_eptp secondary_eptp).1 =
        ⟨[secondary_eptp], 1⟩) ∧
    (q.readable = false ∧ q.writable = false ∧ q.executable = true →
      (handle_ept_violation q primary_eptp secondary_eptp).1 = ⟨[primary_eptp], 1⟩) ∧
    (¬(q.readable = true ∧ q.writable = true ∧ q.executable = false) →
      ¬(q.readable = false ∧ q.writable = false ∧ q.executable = true) →
      (handle_ept_violation q primary_eptp secondary_eptp).1 = ⟨[], 0⟩) ∧
    (handle_ept_violation q primary_eptp secondary_eptp).2 = ExitType.Continue := by
  obtain ⟨r, w, x⟩ := q
  cases r <;> cases w <;> cases x <;> simp [handle_ept_violation]

/-- Witness for `handle_ept_violation_spec` at the read-write data-access
pattern. -/
theorem handle_ept_violation_spec_witness :
    (handle_ept_violation ⟨true, true, false⟩ 7 9).1 = ⟨[9], 1⟩ ∧
    (handle_ept_violation ⟨true, true, false⟩ 7 9).2 = ExitType.Continue :=
  ⟨(handle_ept_violation_spec ⟨true, true, false⟩ 7 9).1 ⟨rfl, rfl, rfl⟩,
   (handle_ept_violation_spec ⟨true, true, false⟩ 7 9).2.2.2⟩

/-- C5: whenever `split_2mb_to_4kb`, `modify_page_permissions` or
`remap_gpa_to_hpa` returns an error, the returned state is the input state
unchanged: every validity check precedes every write. -/
theorem ept_error_atomicity (ept : Ept)
    (guest_pa host_pa access_type pt_table_index : Nat)
    (err1 err2 err3 : HypervisorError) :
    ((split_2mb_to_4kb ept guest_pa pt_table_index).1 = .error err1 →
      (split_2mb_to_4kb ept guest_pa pt_table_index).2 = ept) ∧
    ((modify_page_permissions ept guest_pa access_type pt_table_index).1 = .error err2 →
      (modify_page_permissions ept guest_pa access_type pt_table_index).2 = ept) ∧
    ((remap_gpa_to_hpa ept guest_pa host_pa pt_table_index).1 = .error err3 →
      (remap_gpa_to_hpa ept guest_pa host_pa pt_table_index).2 = ept) := by
  refine ⟨?_, ?_, ?_⟩
  · intro h
    by_cases h1 : pt_table_index = 0 ∨ 64 ≤ pt_table_index
    · simp [split_2mb_to_4kb, h1]
    · by_cases h2 : (ept.pd (pdpt_index guest_pa) (pd_index guest_pa)).large
      · simp [split_2mb_to_4kb, h1, h2] at h
      · simp [split_2mb_to_4kb, h1, h2]
  · intro h
    by_cases h1 : pt_table_index = 0 ∨ 64 ≤ pt_table_index
    · simp [modify_page_permissions, h1]
    · by_cases h2 : (!isLargePageAligned guest_pa && !isBasePageAligned guest_pa) = true
      · simp [modify_page_permissions, h1, h2]
      · by_cases h3 : (ept.pd (pdpt_index guest_pa) (pd_index guest_pa)).large
        · simp [modify_page_permissions, h1, h2, h3] at h
        · simp [modify_page_permissions, h1, h2, h3] at h
  · intro h
    by_cases h1 : pt_table_index = 0 ∨ 64 ≤ pt_table_index
    · simp [remap_gpa_to_hpa, h1]
    · by_cases h2 : (!isBasePageAligned guest_pa || !isBasePageAligned host_pa) = true
      · simp [remap_gpa_to_hpa, h1, h2]
      · by_cases h3 : (ept.pd (pdpt_index guest_pa) (pd_index guest_pa)).large
        · simp [remap_gpa_to_hpa, h1, h2, h3]
        · simp [remap_gpa_to_hpa, h1, h2, h3] at h

/-- Witness for `ept_error_atomicity`: on the zeroed EPT with the unaligned
address 0x1001 and index 5, split fails with `PageAlreadySplit` (the zero PD
entry is not large), modify and remap fail with `UnalignedAddressError`, and
all three leave the state untouched. -/
theorem ept_error_atomicity_witness :
    (split_2mb_to_4kb eptZeroC 0x1001 5).1 = .error .PageAlreadySplit ∧
    (split_2mb_to_4kb eptZeroC 0x1001 5).2 = eptZeroC ∧
    (modify_page_permissions eptZeroC 0x1001 1 5).1 = .error .UnalignedAddressError ∧
    (modify_page_permissions eptZeroC 0x1001 1 5).2 = eptZeroC ∧
    (remap_gpa_to_hpa eptZeroC 0x1001 0 5).1 = .error .UnalignedAddressError ∧
    (remap_gpa_to_hpa eptZeroC 0x1001 0 5).2 = eptZeroC := by
  have h := ept_error_atomicity eptZeroC 0x1001 0 1 5 .PageAlreadySplit
    .UnalignedAddressError .UnalignedAddressError
  exact ⟨rfl, h.1 rfl, rfl, h.2.1 rfl, rfl, h.2.2 rfl⟩

/-- C6: for base-page-aligned addresses and a valid index,
`remap_gpa_to_hpa` fails with `LargePageRemapError` and changes nothing when
the governing PD entry is large; when it is not large it succeeds, having
set only the PFN field of the addressed 4KB entry of `pt[pt_table_index]`
to `host_pa >> 12`, leaving the permissions, memory type and large flag of
that entry and every other entry of the structure untouched. -/
theorem remap_gpa_to_hpa_spec (ept : Ept) (guest_pa host_pa pt_table_index k m : Nat)
    (hidx0 : pt_table_index ≠ 0) (hidx : pt_table_index < 64)
    (hga : isBasePageAligned guest_pa = true)
    (hha : isBasePageAligned host_pa = true) (hha52 : host_pa < 2 ^ 52) :
    ((ept.pd (pdpt_index guest_pa) (pd_index guest_pa)).large = true →
      remap_gpa_to_hpa ept guest_pa host_pa pt_table_index =
        (.error .LargePageRemapError, ept)) ∧
    ((ept.pd (pdpt_index guest_pa) (pd_index guest_pa)).large = false →
      (remap_gpa_to_hpa ept guest_pa host_pa pt_table_index).1 = .ok () ∧
      ((remap_gpa_to_hpa ept guest_pa host_pa pt_table_index).2.pt pt_table_index
          (pt_index guest_pa)).pfn = host_pa >>> 12 ∧
      ((remap_gpa_to_hpa ept guest_pa host_pa pt_table_index).2.pt pt_table_index
          (pt_index guest_pa)).readable =
        (ept.pt pt_table_index (pt_index guest_pa)).readable ∧
      ((remap_gpa_to_hpa ept guest_pa host_pa pt_table_index).2.pt pt_table_index
          (pt_index guest_pa)).writable =
        (ept.pt pt_table_index (pt_index guest_pa)).writable ∧
      ((remap_gpa_to_hpa ept guest_pa host_pa pt_table_index).2.pt pt_table_index
          (pt_index guest_pa)).executable =
        (ept.pt pt_table_index (pt_index guest_pa)).executable ∧
      ((remap_gpa_to_hpa ept guest_pa host_pa pt_table_index).2.pt pt_table_index
          (pt_index guest_pa)).memory_type =
        (ept.pt pt_table_index (pt_index guest_pa)).memory_type ∧
      ((remap_gpa_to_hpa ept guest_pa host_pa pt_table_index).2.pt pt_table_index
          (pt_index guest_pa)).large =
        (ept.pt pt_table_index (pt_index guest_pa)).large ∧
      (remap_gpa_to_hpa ept guest_pa host_pa pt_table_index).2.pml4 = ept.pml4 ∧
      (remap_gpa_to_hpa ept guest_pa host_pa pt_table_index).2.pdpt = ept.pdpt ∧
      (remap_gpa_to_hpa ept guest_pa host_pa pt_table_index).2.pd = ept.pd ∧
      (¬(k = pt_table_index ∧ m = pt_index guest_pa) →
        (remap_gpa_to_hpa ept guest_pa host_pa pt_table_index).2.pt k m =
          ept.pt k m)) := by
  have h1 : ¬(pt_table_index = 0 ∨ 64 ≤ pt_table_index) := by omega
  have h2 : (!isBasePageAligned guest_pa || !isBasePageAligned host_pa) = false := by
    simp [hga, hha]
  have hpfn : host_pa >>> 12 < 1099511627776 := by
    rw [Nat.shiftRight_eq_div_pow]
    have hpow : (2 : Nat) ^ 12 = 4096 := by norm_num
    rw [hpow]
    refine Nat.div_lt_of_lt_mul ?_
    have h52n : (2 : Nat) ^ 52 = 4503599627370496 := by norm_num
    rw [h52n] at hha52
    omega
  constructor
  · intro hl
    simp [remap_gpa_to_hpa, h1, h2, hl]
  · intro hl
    refine ⟨?_, ?_, ?_, ?_, ?_, ?_, ?_, ?_, ?_, ?_, ?_⟩
    · simp [remap_gpa_to_hpa, h1, h2, hl]
    · simp [remap_gpa_to_hpa, h1, h2, hl, updF, upd, BASE_PAGE_SHIFT,
        Nat.mod_eq_of_lt hpfn]
    · simp [remap_gpa_to_hpa, h1, h2, hl, updF, upd]
    · simp [remap_gpa_to_hpa, h1, h2, hl, updF, upd]
    · simp [remap_gpa_to_hpa, h1, h2, hl, updF, upd]
    · simp [remap_gpa_to_hpa, h1, h2, hl, updF, upd]
    · simp [remap_gpa_to_hpa, h1, h2, hl, updF, upd]
    · simp [remap_gpa_to_hpa, h1, h2, hl]
    · simp [remap_gpa_to_hpa, h1, h2, hl]
    · simp [remap_gpa_to_hpa, h1, h2, hl]
    · intro hkm
      by_cases hk : k = pt_table_index
      · subst hk
        have hm : m ≠ pt_index guest_pa := by tauto
        simp [remap_gpa_to_hpa, h1, h2, hl, updF, upd, hm]
      · simp [remap_gpa_to_hpa, h1, h2, hl, updF, upd, hk]

/-- Witness for `remap_gpa_to_hpa_spec` on the zeroed EPT: remapping GPA
0x3000 to HPA 0x5000 through `pt[3]` succeeds, sets the PFN of the addressed
entry, and leaves an unrelated entry unchanged. -/
theorem remap_gpa_to_hpa_spec_witness :
    (remap_gpa_to_hpa eptZeroC 0x3000 0x5000 3).1 = .ok () ∧
    ((remap_gpa_to_hpa eptZeroC 0x3000 0x5000 3).2.pt 3 (pt_index 0x3000)).pfn =
      0x5000 >>> 12 ∧
    (remap_gpa_to_hpa eptZeroC 0x3000 0x5000 3).2.pt 0 0 = eptZeroC.pt 0 0 := by
  have h := (remap_gpa_to_hpa_spec eptZeroC 0x3000 0x5000 3 0 0 (by decide)
    (by decide) (by decide) (by decide) (by decide)).2 (by decide)
  obtain ⟨hok, hpfn, -, -, -, -, -, -, -, -, hframe⟩ := h
  exact ⟨hok, hpfn, hframe (by decide)⟩

/-- C7: for an aligned address and a valid index,
`modify_page_permissions` edits the governing PD entry when it is large and
otherwise the addressed entry of `pt[pt_table_index]`, setting exactly the
readable, writable and executable bits to match `access_type` and leaving
the memory type, PFN and large flag of the edited entry, and every other
entry, unchanged. -/
theorem modify_page_permissions_spec (ept : Ept)
    (guest_pa access_type pt_table_index k m : Nat)
    (hidx0 : pt_table_index ≠ 0) (hidx : pt_table_index < 64)
    (halign : isLargePageAligned guest_pa = true ∨ isBasePageAligned guest_pa = true) :
    ((ept.pd (pdpt_index guest_pa) (pd_index guest_pa)).large = true →
      (modify_page_permissions ept guest_pa access_type pt_table_index).1 = .ok () ∧
      ((modify_page_permissions ept guest_pa access_type pt_table_index).2.pd
          (pdpt_index guest_pa) (pd_index guest_pa)).readable =
        accessContains access_type AccessTypeREAD ∧
      ((modify_page_permissions ept guest_pa access_type pt_table_index).2.pd
          (pdpt_index guest_pa) (pd_index guest_pa)).writable =
        accessContains access_type AccessTypeWRITE ∧
      ((modify_page_permissions ept guest_pa access_type pt_table_index).2.pd
          (pdpt_index guest_pa) (pd_index guest_pa)).executable =
        accessContains access_type AccessTypeEXECUTE ∧
      ((modify_page_permissions ept guest_pa access_type pt_table_index).2.pd
          (pdpt_index guest_pa) (pd_index guest_pa)).memory_type =
        (ept.pd (pdpt_index guest_pa) (pd_index guest_pa)).memory_type ∧
      ((modify_page_permissions ept guest_pa access_type pt_table_index).2.pd
          (pdpt_index guest_pa) (pd_index guest_pa)).pfn =
        (ept.pd (pdpt_index guest_pa) (pd_index guest_pa)).pfn ∧
      ((modify_page_permissions ept guest_pa access_type pt_table_index).2.pd
          (pdpt_index guest_pa) (pd_index guest_pa)).large =
        (ept.pd (pdpt_index guest_pa) (pd_index guest_pa)).large ∧
      (modify_page_permissions ept guest_pa access_type pt_table_index).2.pml4 =
        ept.pml4 ∧
      (modify_page_permissions ept guest_pa access_type pt_table_index).2.pdpt =
        ept.pdpt ∧
      (modify_page_permissions ept guest_pa access_type pt_table_index).2.pt =
        ept.pt ∧
      (¬(k = pdpt_index guest_pa ∧ m = pd_index guest_pa) →
        (modify_page_permissions ept guest_pa access_type pt_table_index).2.pd k m =
          ept.pd k m)) ∧
    ((ept.pd (pdpt_index guest_pa) (pd_index guest_pa)).large = false →
      (modify_page_permissions ept guest_pa access_type pt_table_index).1 = .ok () ∧
      ((modify_page_permissions ept guest_pa access_type pt_table_index).2.pt
          pt_table_index (pt_index guest_pa)).readable =
        accessContains access_type AccessTypeREAD ∧
      ((modify_page_permissions ept guest_pa access_type pt_table_index).2.pt
          pt_table_index (pt_index guest_pa)).writable =
        accessContains access_type AccessTypeWRITE ∧
      ((modify_page_permissions ept guest_pa access_type pt_table_index).2.pt
          pt_table_index (pt_index guest_pa)).executable =
        accessContains access_type AccessTypeEXECUTE ∧
      ((modify_page_permissions ept guest_pa access_type pt_table_index).2.pt
          pt_table_index (pt_index guest_pa)).memory_type =
        (ept.pt pt_table_index (pt_index guest_pa)).memory_type ∧
      ((modify_page_permissions ept guest_pa access_type pt_table_index).2.pt
          pt_table_index (pt_index guest_pa)).pfn =
        (ept.pt pt_table_index (pt_index guest_pa)).pfn ∧
      ((modify_page_permissions ept guest_pa access_type pt_table_index).2.pt
          pt_table_index (pt_index guest_pa)).large =
        (ept.pt pt_table_index (pt_index guest_pa)).large ∧
      (modify_page_permissions ept guest_pa access_type pt_table_index).2.pml4 =
        ept.pml4 ∧
      (modify_page_permissions ept guest_pa access_type pt_table_index).2.pdpt =
        ept.pdpt ∧
      (modify_page_permissions ept guest_pa access_type pt_table_index).2.pd =
        ept.pd ∧
      (¬(k = pt_table_index ∧ m = pt_index guest_pa) →
        (modify_page_permissions ept guest_pa access_type pt_table_index).2.pt k m =
          ept.pt k m)) := by
  have h1 : ¬(pt_table_index = 0 ∨ 64 ≤ pt_table_index) := by omega
  have h2 : (!isLargePageAligned guest_pa && !isBasePageAligned guest_pa) = false := by
    rcases halign with h | h <;> simp [h]
  constructor
  · intro hl
    refine ⟨?_, ?_, ?_, ?_, ?_, ?_, ?_, ?_, ?_, ?_, ?_⟩
    · simp [modify_page_permissions, h1, h2, hl]
    · simp [modify_page_permissions, h1, h2, hl, updF, upd, setRwx]
    · simp [modify_page_permissions, h1, h2, hl, updF, upd, setRwx]
    · simp [modify_page_permissions, h1, h2, hl, updF, upd, setRwx]
    · simp [modify_page_permissions, h1, h2, hl, updF, upd, setRwx]
    · simp [modify_page_permissions, h1, h2, hl, updF, upd, setRwx]
    · simp [modify_page_permissions, h1, h2, hl, updF, upd, setRwx]
    · simp [modify_page_permissions, h1, h2, hl]
    · simp [modify_page_permissions, h1, h2, hl]
    · simp [modify_page_permissions, h1, h2, hl]
    · intro hkm
      by_cases hk : k = pdpt_index guest_pa
      · subst hk
        have hm : m ≠ pd_index guest_pa := by tauto
        simp [modify_page_permissions, h1, h2, hl, updF, upd, hm]
      · simp [modify_page_permissions, h1, h2, hl, updF, upd, hk]
  · intro hl
    refine ⟨?_, ?_, ?_, ?_, ?_, ?_, ?_, ?_, ?_, ?_, ?_⟩
    · simp [modify_page_permissions, h1, h2, hl]
    · simp [modify_page_permissions, h1, h2, hl, updF, upd, setRwx]
    · simp [modify_page_permissions, h1, h2, hl, updF, upd, setRwx]
    · simp [modify_page_permissions, h1, h2, hl, updF, upd, setRwx]
    · simp [modify_page_permissions, h1, h2, hl, updF, upd, setRwx]
    · simp [modify_page_permissions, h1, h2, hl, updF, upd, setRwx]
    · simp [modify_page_permissions, h1, h2, hl, updF, upd, setRwx]
    · simp [modify_page_permissions, h1, h2, hl]
    · simp [modify_page_permissions, h1, h2, hl]
    · simp [modify_page_permissions, h1, h2, hl]
    · intro hkm
      by_cases hk : k = pt_table_index
      · subst hk
        have hm : m ≠ pt_index guest_pa := by tauto
        simp [modify_page_permissions, h1, h2, hl, updF, upd, hm]
      · simp [modify_page_permissions, h1, h2, hl, updF, upd, hk]

/-- Witness for `modify_page_permissions_spec`: on the EPT whose PD entry
(0, 1) is a large mapping, editing the permissions of the 2MB page at
0x200000 to read-execute edits that PD entry in place and touches no PT. -/
theorem modify_page_permissions_spec_witness :
    (modify_page_permissions eptSplitC 0x200000 5 7).1 = .ok () ∧
    ((modify_page_permissions eptSplitC 0x200000 5 7).2.pd (pdpt_index 0x200000)
        (pd_index 0x200000)).readable = accessContains 5 AccessTypeREAD ∧
    ((modify_page_permissions eptSplitC 0x200000 5 7).2.pd (pdpt_index 0x200000)
        (pd_index 0x200000)).writable = accessContains 5 AccessTypeWRITE ∧
    ((modify_page_permissions eptSplitC 0x200000 5 7).2.pd (pdpt_index 0x200000)
        (pd_index 0x200000)).pfn =
      (eptSplitC.pd (pdpt_index 0x200000) (pd_index 0x200000)).pfn ∧
    (modify_page_permissions eptSplitC 0x200000 5 7).2.pt = eptSplitC.pt := by
  have h := (modify_page_permissions_spec eptSplitC 0x200000 5 7 0 0 (by decide)
    (by decide) (Or.inl (by decide))).1 (by decide)
  obtain ⟨hok, hr, hw, -, -, hpfn, -, -, -, hpt, -⟩ := h
  exact ⟨hok, hr, hw, hpfn, hpt⟩

/-- C10: neither `remap_gpa_to_hpa` nor `modify_page_permissions` checks
that the governing PD entry references `pt[pt_table_index]`: no hypothesis
below relates the PD entry PFN to the chosen index, yet under the alignment
and non-large preconditions both operations return Ok, write the entry of
`pt[pt_table_index]` selected by the PT index bits of the address, and leave
the whole PD level (hence the mapping actually reachable through the PD
entry) and every other PT table unchanged. -/
theorem pt_index_unchecked_write (ept : Ept)
    (guest_pa host_pa access_type pt_table_index k : Nat)
    (hidx0 : pt_table_index ≠ 0) (hidx : pt_table_index < 64)
    (hga : isBasePageAligned guest_pa = true)
    (hha : isBasePageAligned host_pa = true)
    (hlarge : (ept.pd (pdpt_index guest_pa) (pd_index guest_pa)).large = false)
    (hk : k ≠ pt_table_index) :
    (remap_gpa_to_hpa ept guest_pa host_pa pt_table_index).1 = .ok () ∧
    (remap_gpa_to_hpa ept guest_pa host_pa pt_table_index).2.pt pt_table_index
        (pt_index guest_pa) =
      (ept.pt pt_table_index (pt_index guest_pa)).set_pfn (host_pa >>> 12) ∧
    (remap_gpa_to_hpa ept guest_pa host_pa pt_table_index).2.pd = ept.pd ∧
    (remap_gpa_to_hpa ept guest_pa host_pa pt_table_index).2.pt k = ept.pt k ∧
    (modify_page_permissions ept guest_pa access_type pt_table_index).1 = .ok () ∧
    (modify_page_permissions ept guest_pa access_type pt_table_index).2.pt
        pt_table_index (pt_index guest_pa) =
      setRwx (ept.pt pt_table_index (pt_index guest_pa)) access_type ∧
    (modify_page_permissions ept guest_pa access_type pt_table_index).2.pd = ept.pd ∧
    (modify_page_permissions ept guest_pa access_type pt_table_index).2.pt k =
      ept.pt k := by
  have h1 : ¬(pt_table_index = 0 ∨ 64 ≤ pt_table_index) := by omega
  have h2 : (!isBasePageAligned guest_pa || !isBasePageAligned host_pa) = false := by
    simp [hga, hha]
  have h3 : (!isLargePageAligned guest_pa && !isBasePageAligned guest_pa) = false := by
    simp [hga]
  refine ⟨?_, ?_, ?_, ?_, ?_, ?_, ?_, ?_⟩
  · simp [remap_gpa_to_hpa, h1, h2, hlarge]
  · simp [remap_gpa_to_hpa, h1, h2, hlarge, updF, upd, BASE_PAGE_SHIFT]
  · simp [remap_gpa_to_hpa, h1, h2, hlarge]
  · funext m
    simp [remap_gpa_to_hpa, h1, h2, hlarge, updF, hk]
  · simp [modify_page_permissions, h1, h3, hlarge]
  · simp [modify_page_permissions, h1, h3, hlarge, updF, upd]
  · simp [modify_page_permissions, h1, h3, hlarge]
  · funext m
    simp [modify_page_permissions, h1, h3, hlarge, updF, hk]

/-- Witness for `pt_index_unchecked_write`: on the EPT whose PD entry (0, 3)
is non-large with PFN 0x123, which references none of the PT tables, both
operations invoked with index 3 still succeed and write `pt[3]` while the
PD level and `pt[2]` stay unchanged. -/
theorem pt_index_unchecked_write_witness :
    (remap_gpa_to_hpa eptMisC 0x600000 0x5000 3).1 = .ok () ∧
    (remap_gpa_to_hpa eptMisC 0x600000 0x5000 3).2.pt 3 (pt_index 0x600000) =
      (eptMisC.pt 3 (pt_index 0x600000)).set_pfn (0x5000 >>> 12) ∧
    (remap_gpa_to_hpa eptMisC 0x600000 0x5000 3).2.pd = eptMisC.pd ∧
    (remap_gpa_to_hpa eptMisC 0x600000 0x5000 3).2.pt 2 = eptMisC.pt 2 := by
  have h := pt_index_unchecked_write eptMisC 0x600000 0x5000 7 3 2 (by decide)
    (by decide) (by decide) (by decide) (by decide) (by decide)
  exact ⟨h.1, h.2.1, h.2.2.1, h.2.2.2.1⟩

/-- C1 (amended): for a 2MB-aligned `guest_pa` governed by a large PD entry
and a PT index in [1, 63], after a successful split each entry `i` of
`pt[pt_table_index]` is readable, writable and executable with the memory
type of the pre-split large entry and PFN `(guest_pa + i * 4096) >> 12`
(the code uses `guest_pa` itself as the base, which for aligned input is the
2MB region base), and the PD entry is repointed at `pt[pt_table_index]`
with full permissions, the preserved memory type and `large = false`, so the
effective mapping of the region changes only in granularity. -/
theorem split_2mb_to_4kb_aligned_spec (ept : Ept) (guest_pa pt_table_index i : Nat)
    (hidx0 : pt_table_index ≠ 0) (hidx : pt_table_index < 64)
    (hlarge : (ept.pd (pdpt_index guest_pa) (pd_index guest_pa)).large = true)
    (halign : guest_pa % LARGE_PAGE_SIZE = 0)
    (hbound : guest_pa + LARGE_PAGE_SIZE ≤ 2 ^ 52)
    (haddr : ept.ptAddr pt_table_index < 2 ^ 52) (hi : i < 512) :
    (split_2mb_to_4kb ept guest_pa pt_table_index).1 = .ok () ∧
    ((split_2mb_to_4kb ept guest_pa pt_table_index).2.pt pt_table_index i).readable =
      true ∧
    ((split_2mb_to_4kb ept guest_pa pt_table_index).2.pt pt_table_index i).writable =
      true ∧
    ((split_2mb_to_4kb ept guest_pa pt_table_index).2.pt pt_table_index i).executable =
      true ∧
    ((split_2mb_to_4kb ept guest_pa pt_table_index).2.pt pt_table_index i).memory_type =
      (ept.pd (pdpt_index guest_pa) (pd_index guest_pa)).memory_type ∧
    ((split_2mb_to_4kb ept guest_pa pt_table_index).2.pt pt_table_index i).pfn =
      (guest_pa + i * 4096) >>> 12 ∧
    ((split_2mb_to_4kb ept guest_pa pt_table_index).2.pd (pdpt_index guest_pa)
        (pd_index guest_pa)).readable = true ∧
    ((split_2mb_to_4kb ept guest_pa pt_table_index).2.pd (pdpt_index guest_pa)
        (pd_index guest_pa)).writable = true ∧
    ((split_2mb_to_4kb ept guest_pa pt_table_index).2.pd (pdpt_index guest_pa)
        (pd_index guest_pa)).executable = true ∧
    ((split_2mb_to_4kb ept guest_pa pt_table_index).2.pd (pdpt_index guest_pa)
        (pd_index guest_pa)).large = false ∧
    ((split_2mb_to_4kb ept guest_pa pt_table_index).2.pd (pdpt_index guest_pa)
        (pd_index guest_pa)).memory_type =
      (ept.pd (pdpt_index guest_pa) (pd_index guest_pa)).memory_type ∧
    ((split_2mb_to_4kb ept guest_pa pt_table_index).2.pd (pdpt_index guest_pa)
        (pd_index guest_pa)).pfn = ept.ptAddr pt_table_index >>> 12 := by
  have h1 : ¬(pt_table_index = 0 ∨ 64 ≤ pt_table_index) := by omega
  have hL : LARGE_PAGE_SIZE = 0x200000 := rfl
  have h52n : (2 : Nat) ^ 52 = 4503599627370496 := by norm_num
  have hpow : (2 : Nat) ^ 12 = 4096 := by norm_num
  have hbound2 : guest_pa + 2097152 ≤ 4503599627370496 := by
    rw [hL, h52n] at hbound
    exact hbound
  have hp : (guest_pa + i * 4096) >>> 12 < 1099511627776 := by
    rw [Nat.shiftRight_eq_div_pow, hpow]
    refine Nat.div_lt_of_lt_mul ?_
    omega
  have ha : ept.ptAddr pt_table_index >>> 12 < 1099511627776 := by
    rw [Nat.shiftRight_eq_div_pow, hpow]
    refine Nat.div_lt_of_lt_mul ?_
    rw [h52n] at haddr
    omega
  have hmt : (ept.pd (pdpt_index guest_pa) (pd_index guest_pa)).memory_type < 8 := by
    simpa using memory_type_lt (ept.pd (pdpt_index guest_pa) (pd_index guest_pa))
  refine ⟨?_, ?_, ?_, ?_, ?_, ?_, ?_, ?_, ?_, ?_, ?_, ?_⟩ <;>
    simp [split_2mb_to_4kb, h1, hlarge, updF, upd, splitPtFill, hi, newPte4kb,
      BASE_PAGE_SHIFT, BASE_PAGE_SIZE, Nat.mod_eq_of_lt hp, Nat.mod_eq_of_lt ha,
      Nat.mod_eq_of_lt hmt]

/-- Witness for `split_2mb_to_4kb_aligned_spec` on the concrete EPT with a
large mapping at 0x200000, split through `pt[1]`, inspecting entry 2. -/
theorem split_2mb_to_4kb_aligned_spec_witness :
    (split_2mb_to_4kb eptSplitC 0x200000 1).1 = .ok () ∧
    ((split_2mb_to_4kb eptSplitC 0x200000 1).2.pt 1 2).pfn =
      (0x200000 + 2 * 4096) >>> 12 ∧
    ((split_2mb_to_4kb eptSplitC 0x200000 1).2.pt 1 2).memory_type =
      (eptSplitC.pd (pdpt_index 0x200000) (pd_index 0x200000)).memory_type ∧
    ((split_2mb_to_4kb eptSplitC 0x200000 1).2.pd (pdpt_index 0x200000)
        (pd_index 0x200000)).large = false := by
  have h := split_2mb_to_4kb_aligned_spec eptSplitC 0x200000 1 2 (by decide)
    (by decide) (by decide) (by decide) (by decide) (by decide) (by decide)
  obtain ⟨hok, -, -, -, hmt, hpfn, -, -, -, hlg, -, -⟩ := h
  exact ⟨hok, hpfn, hmt, hlg⟩

/-- Counterexample to C1 as stated: splitting at the unaligned guest
physical address 0x201000, which lies inside the large 2MB region based at
0x200000, succeeds but gives entry 0 the PFN 0x201 rather than the PFN
`(0x200000 + 0 * 4096) >> 12 = 0x200` of the 2MB-aligned region base, since
the code derives the entry PFNs from `guest_pa` without aligning it down. -/
theorem split_2mb_unaligned_counterexample :
    (split_2mb_to_4kb eptSplitC 0x201000 1).1 = .ok () ∧
    ((split_2mb_to_4kb eptSplitC 0x201000 1).2.pt 1 0).pfn = 0x201 ∧
    (0x201 : Nat) ≠ (0x200000 + 0 * 4096) >>> 12 := by
  refine ⟨rfl, ?_, by decide⟩
  decide

@[simp] theorem ptrEntry_readable (old : Entry) (a : Nat) :
    (ptrEntry old a).readable = true := by
  simp [ptrEntry]

@[simp] theorem ptrEntry_writable (old : Entry) (a : Nat) :
    (ptrEntry old a).writable = true := by
  simp [ptrEntry]

@[simp] theorem ptrEntry_executable (old : Entry) (a : Nat) :
    (ptrEntry old a).executable = true := by
  simp [ptrEntry]

@[simp] theorem ptrEntry_large (old : Entry) (a : Nat) :
    (ptrEntry old a).large = old.large := by
  simp [ptrEntry]

@[simp] theorem ptrEntry_pfn (old : Entry) (a : Nat) :
    (ptrEntry old a).pfn = (a >>> 12) % 2 ^ 40 := by
  simp [ptrEntry, BASE_PAGE_SHIFT]

@[simp] theorem newPde2mb_readable (old : Entry) (mt pa : Nat) :
    (newPde2mb old mt pa).readable = true := by
  simp [newPde2mb]

@[simp] theorem newPde2mb_writable (old : Entry) (mt pa : Nat) :
    (newPde2mb old mt pa).writable = true := by
  simp [newPde2mb]

@[simp] theorem newPde2mb_executable (old : Entry) (mt pa : Nat) :
    (newPde2mb old mt pa).executable = true := by
  simp [newPde2mb]

@[simp] theorem newPde2mb_large (old : Entry) (mt pa : Nat) :
    (newPde2mb old mt pa).large = true := by
  simp [newPde2mb]

@[simp] theorem newPde2mb_pfn (old : Entry) (mt pa : Nat) :
    (newPde2mb old mt pa).pfn = (pa >>> 12) % 2 ^ 40 := by
  simp [newPde2mb, BASE_PAGE_SHIFT]

@[simp] theorem newPte4kb_readable (old : Entry) (mt pa : Nat) :
    (newPte4kb old mt pa).readable = true := by
  simp [newPte4kb]

@[simp] theorem newPte4kb_writable (old : Entry) (mt pa : Nat) :
    (newPte4kb old mt pa).writable = true := by
  simp [newPte4kb]

@[simp] theorem newPte4kb_executable (old : Entry) (mt pa : Nat) :
    (newPte4kb old mt pa).executable = true := by
  simp [newPte4kb]

@[simp] theorem newPte4kb_pfn (old : Entry) (mt pa : Nat) :
    (newPte4kb old mt pa).pfn = (pa >>> 12) % 2 ^ 40 := by
  simp [newPte4kb, BASE_PAGE_SHIFT]

/-- Characterization of a successful `ptLoop` run: the cursor advances by
4KB per iteration, slots outside the processed window keep their value, and
each processed slot receives a full-permission identity 4KB entry for the
cursor position of its iteration (with the memory type the resolver chose
for that range). -/
theorem ptLoop_spec (mtrr : MtrrFind) :
    ∀ (n : Nat) (t : Table) (pa j : Nat) (r : Table × Nat),
      ptLoop mtrr t pa j n = .ok r →
      r.2 = pa + n * 4096 ∧
      (∀ m, m < j ∨ j + n ≤ m → r.1 m = t m) ∧
      (∀ k, k < n → ∃ mt, r.1 (j + k) = newPte4kb (t (j + k)) mt (pa + k * 4096)) := by
  intro n
  induction n with
  | zero =>
    intro t pa j r h
    simp only [ptLoop] at h
    cases h
    exact ⟨rfl, fun m _ => rfl, fun k hk => absurd hk (by omega)⟩
  | succ n ih =>
    intro t pa j r h
    simp only [ptLoop] at h
    cases hq : mtrr pa (pa + BASE_PAGE_SIZE) with
    | none => rw [hq] at h; cases h
    | some mt =>
      rw [hq] at h
      obtain ⟨h1, h2, h3⟩ := ih _ _ _ _ h
      have hB : BASE_PAGE_SIZE = 4096 := rfl
      rw [hB] at h1 h3
      refine ⟨by omega, ?_, ?_⟩
      · intro m hm
        rw [h2 m (by omega)]
        have hne : m ≠ j := by omega
        simp [upd, hne]
      · intro k hk
        cases k with
        | zero =>
          refine ⟨mt, ?_⟩
          simp only [Nat.add_zero, Nat.zero_mul]
          rw [h2 j (by omega)]
          simp [upd]
        | succ k =>
          obtain ⟨mt2, hmt2⟩ := h3 k (by omega)
          have hj : j + 1 + k = j + (k + 1) := by omega
          rw [hj] at hmt2
          refine ⟨mt2, ?_⟩
          rw [hmt2]
          have hne : j + (k + 1) ≠ j := by omega
          have harith : pa + 4096 + k * 4096 = pa + (k + 1) * 4096 := by ring
          simp [upd, hne, harith]

/-- Characterization of a successful `pdLoop` run that starts at a nonzero
cursor: every processed slot becomes a large identity 2MB entry, the cursor
advances by 2MB per iteration, and `pt[0]` is untouched. -/
theorem pdLoop_pos_spec (mtrr : MtrrFind) :
    ∀ (n : Nat) (pdT pt0 : Table) (pt0Addr pa j : Nat) (r : Table × Table × Nat),
      pa ≠ 0 →
      pdLoop mtrr pdT pt0 pt0Addr pa j n = .ok r →
      r.2.2 = pa + n * 0x200000 ∧
      r.2.1 = pt0 ∧
      (∀ m, m < j ∨ j + n ≤ m → r.1 m = pdT m) ∧
      (∀ k, k < n → ∃ mt, r.1 (j + k) = newPde2mb (pdT (j + k)) mt (pa + k * 0x200000)) := by
  intro n
  induction n with
  | zero =>
    intro pdT pt0 pt0Addr pa j r hpa h
    simp only [pdLoop] at h
    cases h
    exact ⟨rfl, rfl, fun m _ => rfl, fun k hk => absurd hk (by omega)⟩
  | succ n ih =>
    intro pdT pt0 pt0Addr pa j r hpa h
    simp only [pdLoop, if_neg hpa] at h
    cases hq : mtrr pa (pa + LARGE_PAGE_SIZE) with
    | none => rw [hq] at h; cases h
    | some mt =>
      rw [hq] at h
      have hL : LARGE_PAGE_SIZE = 0x200000 := rfl
      obtain ⟨h1, h2, h3, h4⟩ := ih _ _ _ _ _ _ (by rw [hL]; omega) h
      rw [hL] at h1 h4
      refine ⟨by omega, h2, ?_, ?_⟩
      · intro m hm
        rw [h3 m (by omega)]
        have hne : m ≠ j := by omega
        simp [upd, hne]
      · intro k hk
        cases k with
        | zero =>
          refine ⟨mt, ?_⟩
          simp only [Nat.add_zero, Nat.zero_mul]
          rw [h3 j (by omega)]
          simp [upd, hL]
        | succ k =>
          obtain ⟨mt2, hmt2⟩ := h4 k (by omega)
          have hj : j + 1 + k = j + (k + 1) := by omega
          rw [hj] at hmt2
          refine ⟨mt2, ?_⟩
          rw [hmt2]
          have hne : j + (k + 1) ≠ j := by omega
          have harith : pa + 0x200000 + k * 0x200000 = pa + (k + 1) * 0x200000 := by ring
          simp [upd, hne, harith]

/-- Characterization of a successful `pdLoop` run that starts at cursor 0
and slot 0: the first slot becomes a pointer to `pt[0]`, `pt[0]` is filled
with 4KB identity entries for the first 2MB, and every further processed
slot becomes a large identity 2MB entry. -/
theorem pdLoop_zero_spec (mtrr : MtrrFind) (pdT pt0 : Table) (pt0Addr : Nat)
    (n : Nat) (r : Table × Table × Nat)
    (h : pdLoop mtrr pdT pt0 pt0Addr 0 0 (n + 1) = .ok r) :
    r.2.2 = (n + 1) * 0x200000 ∧
    r.1 0 = ptrEntry (pdT 0) pt0Addr ∧
    (∀ k, 1 ≤ k → k < n + 1 → ∃ mt, r.1 k = newPde2mb (pdT k) mt (k * 0x200000)) ∧
    (∀ m, n + 1 ≤ m → r.1 m = pdT m) ∧
    (∀ k, k < 512 → ∃ mt, r.2.1 k = newPte4kb (pt0 k) mt (k * 4096)) ∧
    (∀ m, 512 ≤ m → r.2.1 m = pt0 m) := by
  simp only [pdLoop, if_pos rfl] at h
  cases hpt : ptLoop mtrr pt0 0 0 512 with
  | error e => rw [hpt] at h; cases h
  | ok s =>
    rw [hpt] at h
    obtain ⟨hs1, hs2, hs3⟩ := ptLoop_spec mtrr 512 pt0 0 0 s hpt
    obtain ⟨pt0a, pa1⟩ := s
    simp only at hs1 hs2 hs3 h
    have hpa1 : pa1 = 0x200000 := by omega
    subst hpa1
    obtain ⟨h1, h2, h3, h4⟩ := pdLoop_pos_spec mtrr n _ _ _ _ _ _ (by omega) h
    refine ⟨by omega, ?_, ?_, ?_, ?_, ?_⟩
    · rw [h3 0 (by omega)]
      simp [upd]
    · intro k hk1 hk2
      obtain ⟨mt, hmt⟩ := h4 (k - 1) (by omega)
      have hk3 : 1 + (k - 1) = k := by omega
      rw [hk3] at hmt
      refine ⟨mt, ?_⟩
      rw [hmt]
      have hne : k ≠ 0 := by omega
      have harith : 0x200000 + (k - 1) * 0x200000 = k * 0x200000 := by
        have : k - 1 + 1 = k := by omega
        calc 0x200000 + (k - 1) * 0x200000 = (k - 1 + 1) * 0x200000 := by ring
          _ = k * 0x200000 := by rw [this]
      simp [upd, hne, harith]
    · intro m hm
      rw [h3 m (by omega)]
      have hne : m ≠ 0 := by omega
      simp [upd, hne]
    · intro k hk
      rw [h2]
      obtain ⟨mt, hmt⟩ := hs3 k hk
      have hz : 0 + k = k := by omega
      rw [hz] at hmt
      refine ⟨mt, ?_⟩
      rw [hmt]
      have harith : 0 + k * 4096 = k * 4096 := by omega
      rw [harith]
    · intro m hm
      rw [h2]
      exact hs2 m (by omega)

/-- Characterization of a successful `pdptLoop` run that starts at a nonzero
cursor: each processed PDPT slot becomes a pointer to its PD, whose 512
entries all become large identity 2MB entries; `pt[0]` is untouched and the
cursor advances by 1GB per iteration. -/
theorem pdptLoop_pos_spec (mtrr : MtrrFind) :
    ∀ (n : Nat) (pdptT : Table) (pdTs : Nat → Table) (pt0 : Table)
      (pdAddr : Nat → Nat) (pt0Addr pa i : Nat)
      (r : Table × (Nat → Table) × Table × Nat),
      pa ≠ 0 →
      pdptLoop mtrr pdptT pdTs pt0 pdAddr pt0Addr pa i n = .ok r →
      r.2.2.2 = pa + n * 0x40000000 ∧
      r.2.2.1 = pt0 ∧
      (∀ m, m < i ∨ i + n ≤ m → r.1 m = pdptT m ∧ r.2.1 m = pdTs m) ∧
      (∀ k, k < n →
        r.1 (i + k) = ptrEntry (pdptT (i + k)) (pdAddr (i + k)) ∧
        (∀ j2, j2 < 512 → ∃ mt, r.2.1 (i + k) j2 =
          newPde2mb (pdTs (i + k) j2) mt (pa + k * 0x40000000 + j2 * 0x200000)) ∧
        (∀ m2, 512 ≤ m2 → r.2.1 (i + k) m2 = pdTs (i + k) m2)) := by
  intro n
  induction n with
  | zero =>
    intro pdptT pdTs pt0 pdAddr pt0Addr pa i r hpa h
    simp only [pdptLoop] at h
    cases h
    exact ⟨rfl, rfl, fun m _ => ⟨rfl, rfl⟩, fun k hk => absurd hk (by omega)⟩
  | succ n ih =>
    intro pdptT pdTs pt0 pdAddr pt0Addr pa i r hpa h
    simp only [pdptLoop] at h
    cases hpd : pdLoop mtrr (pdTs i) pt0 pt0Addr pa 0 512 with
    | error e => rw [hpd] at h; cases h
    | ok s =>
      rw [hpd] at h
      obtain ⟨hs1, hs2, hs3, hs4⟩ := pdLoop_pos_spec mtrr 512 _ _ _ _ _ _ hpa hpd
      obtain ⟨pdI, pt0a, pa1⟩ := s
      simp only at hs1 hs2 hs3 hs4 h
      subst hs2
      have hpa1 : pa1 = pa + 0x40000000 := by omega
      subst hpa1
      obtain ⟨h1, h2, h3, h4⟩ := ih _ _ _ _ _ _ _ _ (by omega) h
      refine ⟨by omega, h2, ?_, ?_⟩
      · intro m hm
        obtain ⟨ha, hb⟩ := h3 m (by omega)
        have hne : m ≠ i := by omega
        rw [ha, hb]
        constructor
        · simp [upd, hne]
        · simp [updF, hne]
      · intro k hk
        cases k with
        | zero =>
          obtain ⟨ha, hb⟩ := h3 i (by omega)
          simp only [Nat.add_zero, Nat.zero_mul]
          refine ⟨?_, ?_, ?_⟩
          · rw [ha]
            simp [upd]
          · intro j2 hj2
            obtain ⟨mt, hmt⟩ := hs4 j2 hj2
            have hz : 0 + j2 = j2 := by omega
            rw [hz] at hmt
            refine ⟨mt, ?_⟩
            rw [hb]
            simp [updF, hmt]
          · intro m2 hm2
            rw [hb]
            simp only [updF, if_pos]
            exact hs3 m2 (by omega)
        | succ k =>
          obtain ⟨ha, hb, hc⟩ := h4 k (by omega)
          have hj : i + 1 + k = i + (k + 1) := by omega
          rw [hj] at ha hb hc
          have hne : i + (k + 1) ≠ i := by omega
          refine ⟨?_, ?_, ?_⟩
          · rw [ha]
            simp [upd, hne]
          · intro j2 hj2
            obtain ⟨mt, hmt⟩ := hb j2 hj2
            refine ⟨mt, ?_⟩
            rw [hmt]
            have harith : pa + 0x40000000 + k * 0x40000000 + j2 * 0x200000 =
                pa + (k + 1) * 0x40000000 + j2 * 0x200000 := by ring
            rw [harith]
            simp [updF, hne]
          · intro m2 hm2
            rw [hc m2 hm2]
            simp [updF, hne]

/-- Characterization of a successful `pdptLoop` run from cursor 0 and slot 0
(the call made by `build_identity`): PD 0 maps its first 2MB through `pt[0]`
and the rest as large pages, every other processed PD is fully large, the
cursor stays shared across the whole walk, and `pt[0]` holds the 4KB
identity entries of the first 2MB. -/
theorem pdptLoop_zero_spec (mtrr : MtrrFind) (pdptT : Table) (pdTs : Nat → Table)
    (pt0 : Table) (pdAddr : Nat → Nat) (pt0Addr n : Nat)
    (r : Table × (Nat → Table) × Table × Nat)
    (h : pdptLoop mtrr pdptT pdTs pt0 pdAddr pt0Addr 0 0 (n + 1) = .ok r) :
    (∀ i, i < n + 1 → r.1 i = ptrEntry (pdptT i) (pdAddr i)) ∧
    (∀ m, n + 1 ≤ m → r.1 m = pdptT m ∧ r.2.1 m = pdTs m) ∧
    r.2.1 0 0 = ptrEntry (pdTs 0 0) pt0Addr ∧
    (∀ j, 1 ≤ j → j < 512 → ∃ mt, r.2.1 0 j = newPde2mb (pdTs 0 j) mt (j * 0x200000)) ∧
    (∀ m, 512 ≤ m → r.2.1 0 m = pdTs 0 m) ∧
    (∀ i, 1 ≤ i → i < n + 1 →
      (∀ j, j < 512 → ∃ mt, r.2.1 i j =
        newPde2mb (pdTs i j) mt (i * 0x40000000 + j * 0x200000)) ∧
      (∀ m, 512 ≤ m → r.2.1 i m = pdTs i m)) ∧
    (∀ k, k < 512 → ∃ mt, r.2.2.1 k = newPte4kb (pt0 k) mt (k * 4096)) ∧
    (∀ m, 512 ≤ m → r.2.2.1 m = pt0 m) := by
  simp only [pdptLoop] at h
  cases hpd : pdLoop mtrr (pdTs 0) pt0 pt0Addr 0 0 512 with
  | error e => rw [hpd] at h; cases h
  | ok s =>
    rw [hpd] at h
    obtain ⟨pdI, pt0a, pa1⟩ := s
    obtain ⟨hs1, hs2, hs3, hs4, hs5, hs6⟩ := pdLoop_zero_spec mtrr (pdTs 0) pt0
      pt0Addr 511 (pdI, pt0a, pa1) hpd
    simp only at hs1 hs2 hs3 hs4 hs5 hs6 h
    have hpa1 : pa1 = 0x40000000 := by omega
    subst hpa1
    obtain ⟨h1, h2, h3, h4⟩ := pdptLoop_pos_spec mtrr n _ _ _ _ _ _ _ _ (by omega) h
    refine ⟨?_, ?_, ?_, ?_, ?_, ?_, ?_, ?_⟩
    · intro i hi
      cases i with
      | zero =>
        obtain ⟨ha, -⟩ := h3 0 (by omega)
        rw [ha]
        simp [upd]
      | succ i =>
        obtain ⟨ha, -, -⟩ := h4 i (by omega)
        have hj : 1 + i = i + 1 := by omega
        rw [hj] at ha
        rw [ha]
        have hne : i + 1 ≠ 0 := by omega
        simp [upd, hne]
    · intro m hm
      obtain ⟨ha, hb⟩ := h3 m (by omega)
      have hne : m ≠ 0 := by omega
      rw [ha, hb]
      exact ⟨by simp [upd, hne], by simp [updF, hne]⟩
    · obtain ⟨-, hb⟩ := h3 0 (by omega)
      rw [hb]
      simp only [updF, if_pos]
      exact hs2
    · intro j hj1 hj2
      obtain ⟨-, hb⟩ := h3 0 (by omega)
      rw [hb]
      simp only [updF, if_pos]
      exact hs3 j hj1 (by omega)
    · intro m hm
      obtain ⟨-, hb⟩ := h3 0 (by omega)
      rw [hb]
      simp only [updF, if_pos]
      exact hs4 m (by omega)
    · intro i hi1 hi2
      obtain ⟨-, hb, hc⟩ := h4 (i - 1) (by omega)
      have hj : 1 + (i - 1) = i := by omega
      rw [hj] at hb hc
      have hne : i ≠ 0 := by omega
      constructor
      · intro j hj2
        obtain ⟨mt, hmt⟩ := hb j hj2
        refine ⟨mt, ?_⟩
        rw [hmt]
        have harith : 0x40000000 + (i - 1) * 0x40000000 + j * 0x200000 =
            i * 0x40000000 + j * 0x200000 := by
          have hi3 : i - 1 + 1 = i := by omega
          calc 0x40000000 + (i - 1) * 0x40000000 + j * 0x200000
              = (i - 1 + 1) * 0x40000000 + j * 0x200000 := by ring
            _ = i * 0x40000000 + j * 0x200000 := by rw [hi3]
        rw [harith]
        simp [updF, hne]
      · intro m hm
        rw [hc m hm]
        simp [updF, hne]
    · intro k hk
      rw [h2]
      exact hs5 k hk
    · intro m hm
      rw [h2]
      exact hs6 m hm

/-- Characterization of a successful `build_identity` run: PML4 slot 0 and
all PDPT slots become full-permission pointers to the next level, PD entry
(0, 0) points at `pt[0]`, every other PD entry becomes a large identity 2MB
entry whose physical address is determined by the single shared cursor, the
entries of `pt[0]` identity-map the first 2MB at 4KB granularity, and the
other PT tables and the recorded table addresses are unchanged. -/
theorem build_identity_spec (mtrr : MtrrFind) (ept e : Ept)
    (h : build_identity mtrr ept = .ok e) :
    e.pml4 0 = ptrEntry (ept.pml4 0) ept.pdptAddr ∧
    (∀ m, m ≠ 0 → e.pml4 m = ept.pml4 m) ∧
    (∀ i, i < 512 → e.pdpt i = ptrEntry (ept.pdpt i) (ept.pdAddr i)) ∧
    e.pd 0 0 = ptrEntry (ept.pd 0 0) (ept.ptAddr 0) ∧
    (∀ j, 1 ≤ j → j < 512 → ∃ mt, e.pd 0 j = newPde2mb (ept.pd 0 j) mt (j * 0x200000)) ∧
    (∀ i j, 1 ≤ i → i < 512 → j < 512 → ∃ mt, e.pd i j =
      newPde2mb (ept.pd i j) mt (i * 0x40000000 + j * 0x200000)) ∧
    (∀ k, k < 512 → ∃ mt, e.pt 0 k = newPte4kb (ept.pt 0 k) mt (k * 4096)) ∧
    (∀ m, m ≠ 0 → e.pt m = ept.pt m) ∧
    e.pml4Addr = ept.pml4Addr ∧ e.pdptAddr = ept.pdptAddr ∧
    e.pdAddr = ept.pdAddr ∧ e.ptAddr = ept.ptAddr := by
  simp only [build_identity] at h
  cases hpl : pdptLoop mtrr ept.pdpt ept.pd (ept.pt 0) ept.pdAddr (ept.ptAddr 0)
      0 0 512 with
  | error err => rw [hpl] at h; cases h
  | ok s =>
    rw [hpl] at h
    obtain ⟨pdptT, pdTs, pt0a, paf⟩ := s
    obtain ⟨g1, g2, g3, g4, g5, g6, g7, g8⟩ := pdptLoop_zero_spec mtrr ept.pdpt
      ept.pd (ept.pt 0) ept.pdAddr (ept.ptAddr 0) 511 (pdptT, pdTs, pt0a, paf) hpl
    simp only at g1 g2 g3 g4 g5 g6 g7 g8 h
    cases h
    refine ⟨?_, ?_, ?_, ?_, ?_, ?_, ?_, ?_, rfl, rfl, rfl, rfl⟩
    · simp [upd]
    · intro m hm
      simp [upd, hm]
    · intro i hi
      exact g1 i (by omega)
    · exact g3
    · intro j hj1 hj2
      exact g4 j hj1 hj2
    · intro i j hi1 hi2 hj
      exact (g6 i hi1 (by omega)).1 j hj
    · intro k hk
      simp only [updF, if_pos]
      exact g7 k hk
    · intro m hm
      simp only [updF]
      simp [hm]

/-- One-step unfolding of `ptLoop`, stated as a definitional equality so
that the recursive call is never evaluated while rewriting. -/
theorem ptLoop_succ (mtrr : MtrrFind) (t : Table) (pa j n : Nat) :
    ptLoop mtrr t pa j (n + 1) =
      match mtrr pa (pa + BASE_PAGE_SIZE) with
      | none => .error .MemoryTypeResolutionError
      | some memory_type =>
        ptLoop mtrr (upd t j (newPte4kb (t j) memory_type pa)) (pa + BASE_PAGE_SIZE)
          (j + 1) n := rfl

/-- One-step unfolding of `pdLoop`. -/
theorem pdLoop_succ (mtrr : MtrrFind) (pdT pt0 : Table) (pt0Addr pa j n : Nat) :
    pdLoop mtrr pdT pt0 pt0Addr pa j (n + 1) =
      if pa = 0 then
        match ptLoop mtrr pt0 pa 0 512 with
        | .error e => .error e
        | .ok (pt0a, pa1) =>
          pdLoop mtrr (upd pdT j (ptrEntry (pdT j) pt0Addr)) pt0a pt0Addr pa1
            (j + 1) n
      else
        match mtrr pa (pa + LARGE_PAGE_SIZE) with
        | none => .error .MemoryTypeResolutionError
        | some memory_type =>
          pdLoop mtrr (upd pdT j (newPde2mb (pdT j) memory_type pa)) pt0 pt0Addr
            (pa + LARGE_PAGE_SIZE) (j + 1) n := rfl

/-- One-step unfolding of `pdptLoop`. -/
theorem pdptLoop_succ (mtrr : MtrrFind) (pdptT : Table) (pdTs : Nat → Table)
    (pt0 : Table) (pdAddr : Nat → Nat) (pt0Addr pa i n : Nat) :
    pdptLoop mtrr pdptT pdTs pt0 pdAddr pt0Addr pa i (n + 1) =
      match pdLoop mtrr (pdTs i) pt0 pt0Addr pa 0 512 with
      | .error e => .error e
      | .ok (pdI, pt0a, pa1) =>
        pdptLoop mtrr (upd pdptT i (ptrEntry (pdptT i) (pdAddr i))) (updF pdTs i pdI)
          pt0a pdAddr pt0Addr pa1 (i + 1) n := rfl

theorem ptLoop_wb_ok : ∀ (n : Nat) (t : Table) (pa j : Nat),
    ∃ r, ptLoop mtrrWB t pa j n = .ok r := by
  intro n
  induction n with
  | zero => intro t pa j; exact ⟨(t, pa), rfl⟩
  | succ n ih =>
    intro t pa j
    obtain ⟨r2, hr2⟩ := ih (upd t j (newPte4kb (t j) 6 pa)) (pa + BASE_PAGE_SIZE) (j + 1)
    refine ⟨r2, ?_⟩
    rw [ptLoop_succ]
    exact hr2

theorem pdLoop_wb_ok : ∀ (n : Nat) (pdT pt0 : Table) (pt0Addr pa j : Nat),
    ∃ r, pdLoop mtrrWB pdT pt0 pt0Addr pa j n = .ok r := by
  intro n
  induction n with
  | zero => intro pdT pt0 pt0Addr pa j; exact ⟨(pdT, pt0, pa), rfl⟩
  | succ n ih =>
    intro pdT pt0 pt0Addr pa j
    by_cases hpa : pa = 0
    · subst hpa
      obtain ⟨⟨pt0a, pa1⟩, hr⟩ := ptLoop_wb_ok 512 pt0 0 0
      obtain ⟨r2, hr2⟩ := ih (upd pdT j (ptrEntry (pdT j) pt0Addr)) pt0a pt0Addr
        pa1 (j + 1)
      refine ⟨r2, ?_⟩
      rw [pdLoop_succ, if_pos rfl, hr]
      exact hr2
    · obtain ⟨r2, hr2⟩ := ih (upd pdT j (newPde2mb (pdT j) 6 pa)) pt0 pt0Addr
        (pa + LARGE_PAGE_SIZE) (j + 1)
      refine ⟨r2, ?_⟩
      rw [pdLoop_succ, if_neg hpa]
      exact hr2

theorem pdptLoop_wb_ok : ∀ (n : Nat) (pdptT : Table) (pdTs : Nat → Table)
    (pt0 : Table) (pdAddr : Nat → Nat) (pt0Addr pa i : Nat),
    ∃ r, pdptLoop mtrrWB pdptT pdTs pt0 pdAddr pt0Addr pa i n = .ok r := by
  intro n
  induction n with
  | zero =>
    intro pdptT pdTs pt0 pdAddr pt0Addr pa i
    exact ⟨(pdptT, pdTs, pt0, pa), rfl⟩
  | succ n ih =>
    intro pdptT pdTs pt0 pdAddr pt0Addr pa i
    obtain ⟨⟨pdI, pt0a, pa1⟩, hr⟩ := pdLoop_wb_ok 512 (pdTs i) pt0 pt0Addr pa 0
    obtain ⟨r2, hr2⟩ := ih (upd pdptT i (ptrEntry (pdptT i) (pdAddr i)))
      (updF pdTs i pdI) pt0a pdAddr pt0Addr pa1 (i + 1)
    refine ⟨r2, ?_⟩
    rw [pdptLoop_succ, hr]
    exact hr2

/-- Unfolding of `build_identity` as a definitional equality. -/
theorem build_identity_unfold (mtrr : MtrrFind) (ept : Ept) :
    build_identity mtrr ept =
      match pdptLoop mtrr ept.pdpt ept.pd (ept.pt 0) ept.pdAddr (ept.ptAddr 0)
          0 0 512 with
      | .error e => .error e
      | .ok (pdptT, pdTs, pt0a, _) =>
        .ok { ept with pml4 := upd ept.pml4 0 (ptrEntry (ept.pml4 0) ept.pdptAddr),
                       pdpt := pdptT, pd := pdTs, pt := updF ept.pt 0 pt0a } := rfl

/-- With the total write-back resolver, `build_identity` on the concrete
zeroed EPT succeeds and produces exactly `identityE`. -/
theorem build_identity_wb_ok : build_identity mtrrWB eptZeroC = .ok identityE := by
  obtain ⟨⟨pdptT, pdTs, pt0a, paf⟩, hr⟩ := pdptLoop_wb_ok 512 eptZeroC.pdpt
    eptZeroC.pd (eptZeroC.pt 0) eptZeroC.pdAddr (eptZeroC.ptAddr 0) 0 0
  have hb : build_identity mtrrWB eptZeroC =
      .ok { eptZeroC with
        pml4 := upd eptZeroC.pml4 0 (ptrEntry (eptZeroC.pml4 0) eptZeroC.pdptAddr),
        pdpt := pdptT, pd := pdTs, pt := updF eptZeroC.pt 0 pt0a } := by
    rw [build_identity_unfold, hr]
  have hid : identityE =
      { eptZeroC with
        pml4 := upd eptZeroC.pml4 0 (ptrEntry (eptZeroC.pml4 0) eptZeroC.pdptAddr),
        pdpt := pdptT, pd := pdTs, pt := updF eptZeroC.pt 0 pt0a } := by
    show getOk (build_identity mtrrWB eptZeroC) eptZeroC = _
    rw [hb]
    rfl
  rw [hb, hid]

/-- C3 (amended): after `build_identity` succeeds on a zeroed EPT, every
guest-physical address aligned to the page size of its governing entry is
identity-mapped with full permissions: entry `k` of `pt[0]`, which governs
`g = k * 4096` in the first 2MB, has PFN `g >> 12`, and the large PD entry
`(i, j)`, which governs `g = (i * 512 + j) * 2MB` elsewhere, has PFN
`g >> 12`, the single shared physical cursor making the mapping monotonic
and contiguous over the 512GB range; the first 2MB is mapped at 4KB
granularity through `pt[0]` (PD entry (0, 0) is a non-large full-permission
pointer to `pt[0]`) and every other 2MB region by a large PD entry, while
the pointer levels (PML4, PDPT) carry full permissions.  A 4KB-aligned
address inside a large region is governed by that large entry, whose PFN is
the region base shifted, not the address shifted. -/
theorem build_identity_granularity_spec (mtrr : MtrrFind)
    (pml4Addr pdptAddr : Nat) (pdAddr ptAddr : Nat → Nat) (e : Ept)
    (h : build_identity mtrr (zeroEpt pml4Addr pdptAddr pdAddr ptAddr) = .ok e)
    (i j k : Nat) (hi : i < 512) (hj : j < 512) (hk : k < 512)
    (hij : ¬(i = 0 ∧ j = 0)) :
    (e.pt 0 k).readable = true ∧ (e.pt 0 k).writable = true ∧
    (e.pt 0 k).executable = true ∧ (e.pt 0 k).pfn = (k * 4096) >>> 12 ∧
    (e.pd 0 0).large = false ∧ (e.pd 0 0).readable = true ∧
    (e.pd 0 0).writable = true ∧ (e.pd 0 0).executable = true ∧
    (e.pd 0 0).pfn = (ptAddr 0 >>> 12) % 2 ^ 40 ∧
    (e.pd i j).large = true ∧ (e.pd i j).readable = true ∧
    (e.pd i j).writable = true ∧ (e.pd i j).executable = true ∧
    (e.pd i j).pfn = ((i * 512 + j) * 0x200000) >>> 12 ∧
    (e.pml4 0).readable = true ∧ (e.pml4 0).writable = true ∧
    (e.pml4 0).executable = true ∧ (e.pml4 0).pfn = (pdptAddr >>> 12) % 2 ^ 40 ∧
    (e.pdpt i).readable = true ∧ (e.pdpt i).writable = true ∧
    (e.pdpt i).executable = true ∧ (e.pdpt i).pfn = (pdAddr i >>> 12) % 2 ^ 40 := by
  obtain ⟨b1, b2, b3, b4, b5, b6, b7, b8, b9, b10, b11, b12⟩ :=
    build_identity_spec mtrr _ e h
  have hpfn_id : ∀ p : Nat, p < 512 → ((p * 4096) >>> 12) % 2 ^ 40 = p := by
    intro p hp
    have h1 : (p * 4096) >>> 12 = p := by
      rw [Nat.shiftRight_eq_div_pow]
      have h12 : (2 : Nat) ^ 12 = 4096 := by norm_num
      rw [h12, Nat.mul_div_assoc p (dvd_refl 4096),
        Nat.div_self (by norm_num : 0 < 4096), Nat.mul_one]
    rw [h1]
    refine Nat.mod_eq_of_lt ?_
    have h40 : (2 : Nat) ^ 40 = 1099511627776 := by norm_num
    omega
  have hkpfn : (k * 4096) >>> 12 = k := by
    rw [Nat.shiftRight_eq_div_pow]
    have h12 : (2 : Nat) ^ 12 = 4096 := by norm_num
    rw [h12, Nat.mul_div_assoc k (dvd_refl 4096),
      Nat.div_self (by norm_num : 0 < 4096), Nat.mul_one]
  have hpt : ∀ p, p < 512 → (e.pt 0 p).readable = true ∧ (e.pt 0 p).writable = true ∧
      (e.pt 0 p).executable = true ∧ (e.pt 0 p).pfn = p := by
    intro p hp
    obtain ⟨mt, hmt⟩ := b7 p hp
    refine ⟨by rw [hmt]; simp, by rw [hmt]; simp, by rw [hmt]; simp, ?_⟩
    rw [hmt, newPte4kb_pfn]
    exact hpfn_id p hp
  obtain ⟨hr1, hr2, hr3, hr4⟩ := hpt k hk
  have hpd00 := b4
  have hpdij : (e.pd i j).large = true ∧ (e.pd i j).readable = true ∧
      (e.pd i j).writable = true ∧ (e.pd i j).executable = true ∧
      (e.pd i j).pfn = (((i * 512 + j) * 0x200000) >>> 12) % 2 ^ 40 := by
    by_cases hi0 : i = 0
    · subst hi0
      have hj1 : 1 ≤ j := by omega
      obtain ⟨mt, hmt⟩ := b5 j hj1 hj
      rw [hmt]
      have harith : (0 * 512 + j) * 0x200000 = j * 0x200000 := by ring
      rw [harith]
      simp
    · have hi1 : 1 ≤ i := by omega
      obtain ⟨mt, hmt⟩ := b6 i j hi1 hi hj
      rw [hmt]
      have harith : (i * 512 + j) * 0x200000 = i * 0x40000000 + j * 0x200000 := by ring
      rw [harith]
      simp
  have hmodij : (((i * 512 + j) * 0x200000) >>> 12) % 2 ^ 40 =
      ((i * 512 + j) * 0x200000) >>> 12 := by
    refine Nat.mod_eq_of_lt ?_
    rw [Nat.shiftRight_eq_div_pow]
    have h12 : (2 : Nat) ^ 12 = 4096 := by norm_num
    have h40 : (2 : Nat) ^ 40 = 1099511627776 := by norm_num
    rw [h12, h40]
    refine Nat.div_lt_of_lt_mul ?_
    have hb1 : i * 512 + j ≤ 262143 := by omega
    have hb2 : (i * 512 + j) * 0x200000 ≤ 262143 * 0x200000 :=
      Nat.mul_le_mul_right _ hb1
    omega
  refine ⟨hr1, hr2, hr3, ?_, ?_, ?_, ?_, ?_, ?_, hpdij.1, hpdij.2.1, hpdij.2.2.1,
    hpdij.2.2.2.1, ?_, ?_, ?_, ?_, ?_, ?_, ?_, ?_, ?_⟩
  · rw [hkpfn]
    exact hr4
  · rw [hpd00]
    simp [zeroEpt, zeroTable]
    decide
  · rw [hpd00]; simp
  · rw [hpd00]; simp
  · rw [hpd00]; simp
  · rw [hpd00]
    simp [zeroEpt]
  · rw [hpdij.2.2.2.2, hmodij]
  · rw [b1]; simp
  · rw [b1]; simp
  · rw [b1]; simp
  · rw [b1]
    simp [zeroEpt]
  · rw [b3 i hi]; simp
  · rw [b3 i hi]; simp
  · rw [b3 i hi]; simp
  · rw [b3 i hi]
    simp [zeroEpt]

/-- Witness for `build_identity_granularity_spec`: the concrete successful
run `identityE` exhibits the 4KB identity entry 5 of `pt[0]`, the non-large
PD entry (0, 0), and the large identity PD entry (0, 7). -/
theorem build_identity_granularity_spec_witness :
    build_identity mtrrWB eptZeroC = .ok identityE ∧
    (identityE.pt 0 5).pfn = (5 * 4096) >>> 12 ∧
    (identityE.pd 0 0).large = false ∧
    (identityE.pd 0 7).large = true ∧
    (identityE.pd 0 7).pfn = ((0 * 512 + 7) * 0x200000) >>> 12 := by
  have h := build_identity_granularity_spec mtrrWB 0x10000 0x11000
    (fun i => 0x12000 + i * 0x1000) (fun i => 0x212000 + i * 0x1000) identityE
    build_identity_wb_ok 0 7 5 (by decide) (by decide) (by decide) (by decide)
  obtain ⟨-, -, -, h4, h5, -, -, -, -, h10, -, -, -, h14, -, -, -, -, -, -, -, -⟩ := h
  exact ⟨build_identity_wb_ok, h4, h5, h10, h14⟩

/-- Counterexample to C3 as stated: the guest-physical address 0x201000 is
page-aligned (4KB) and inside the mapped range, but the entry governing it
after `build_identity` is the large PD entry of the region based at
0x200000, whose PFN is 0x200, not `0x201000 >> 12 = 0x201`. -/
theorem build_identity_page_aligned_counterexample :
    (0x201000 : Nat) % 4096 = 0 ∧
    (identityE.pd (pdpt_index 0x201000) (pd_index 0x201000)).large = true ∧
    (identityE.pd (pdpt_index 0x201000) (pd_index 0x201000)).pfn = 0x200 ∧
    (0x200 : Nat) ≠ 0x201000 >>> 12 := by
  obtain ⟨-, -, -, -, b5, -, -, -, -, -, -, -⟩ :=
    build_identity_spec mtrrWB eptZeroC identityE build_identity_wb_ok
  obtain ⟨mt, hmt⟩ := b5 1 (by omega) (by omega)
  have hpi : pdpt_index 0x201000 = 0 := by decide
  have hdi : pd_index 0x201000 = 1 := by decide
  refine ⟨by decide, ?_, ?_, by decide⟩
  · rw [hpi, hdi, hmt]
    simp
  · rw [hpi, hdi, hmt, newPde2mb_pfn]
    decide

end Illusion
